import Mathlib

/-!
dde-sm2: context lifecycle and the encrypt/decrypt request contract.

A shallow embedding of `gm/sm2/dde-sm2.c`.  The C functions are transcribed
statement by statement.  Everything the file calls but does not define (the
OpenSSL entry points and the C allocator) is a parameter `Lib`: each entry
point answers as a function of the history of the execution so far and of its
arguments, so a theorem quantified over `Lib` holds for every behaviour of
the library.  Every call, every log line and every store through an output
pointer is appended to a trace.
-/

namespace DdeSm2

/-- One octet. -/
abbrev Byte := Nat

/-- Number of values of a `size_t` on the LP64 target. -/
def SIZE_MOD : Nat := 2 ^ 64

/-- A natural number stored into a `size_t`. -/
def toSize (n : Nat) : Nat := n % SIZE_MOD

/-- The conversion `int -> size_t` of `size_t len = BIO_pending(bio)`. -/
def intToSize (i : Int) : Nat := (i % (SIZE_MOD : Int)).toNat

/-- `sizeof(sm2_context)`: three pointers. -/
def sizeof_sm2_context : Nat := 24

/-- Priority `LOG_ERR` of `<sys/syslog.h>`. -/
def LOG_ERR : Nat := 3

/-- Priority `LOG_WARNING` of `<sys/syslog.h>`. -/
def LOG_WARNING : Nat := 4

/-- Answer of `EVP_PKEY_encrypt` / `EVP_PKEY_decrypt`: the returned `int`,
the value left in `*outlen`, and the bytes the library writes to `out`, all of
them, whatever it reports in `*outlen` (nothing is written when `out` is
`NULL`). -/
structure OpResult where
  ret : Int
  outlen : Nat
  data : List Byte
deriving DecidableEq, Repr

/-- Answer of a PEM serializer: the returned `int` and the bytes it put into
the memory BIO. -/
structure PemResult where
  ret : Int
  written : List Byte
deriving DecidableEq, Repr

/-- Answer of `BIO_read`: the returned `int` and the bytes the BIO has for the
destination, of which it copies as many as it returns. -/
structure ReadResult where
  ret : Int
  data : List Byte
deriving DecidableEq, Repr

/-- Observable steps of an execution, in program order.  Pointers are
addresses; `none` is `NULL`. -/
inductive Event where
  | log (priority line : Nat)
  | ERR_get_error (code : Nat)
  | ERR_error_string_n (code : Nat)
  | ERR_clear_error
  | OPENSSL_init_crypto
  | EVP_PKEY_CTX_new_id (res : Option Nat)
  | EVP_PKEY_keygen_init (pctx : Nat) (ret : Int)
  | EVP_PKEY_keygen (pctx : Nat) (ret : Int) (pkey : Option Nat)
  | EVP_PKEY_free (key : Nat)
  | EVP_PKEY_CTX_new (key : Nat) (res : Option Nat)
  | EVP_PKEY_CTX_free (ctx : Nat)
  | EVP_PKEY_encrypt_init (ctx : Nat) (ret : Int)
  | EVP_PKEY_decrypt_init (ctx : Nat) (ret : Int)
  | EVP_PKEY_encrypt (ctx : Nat) (out : Option Nat) (avail : Nat) (inp : List Byte) (inLen : Nat)
      (res : OpResult)
  | EVP_PKEY_decrypt (ctx : Nat) (out : Option Nat) (avail : Nat) (inp : List Byte) (inLen : Nat)
      (res : OpResult)
  | OPENSSL_malloc (num : Nat) (res : Option Nat)
  | OPENSSL_zalloc (num : Nat) (res : Option Nat)
  | OPENSSL_free (p : Nat)
  | BIO_new (res : Option Nat)
  | BIO_free (bio : Nat)
  | PEM_write_bio_PUBKEY (bio key : Nat) (res : PemResult)
  | PEM_write_bio_PrivateKey (bio key : Nat) (res : PemResult)
  | BIO_pending (bio : Nat) (ret : Int)
  | BIO_read (bio buf dlen : Nat) (res : ReadResult)
  | malloc (size : Nat) (res : Option Nat)
  | free (p : Nat)
  | storeOut (addr val : Nat)
  | storeOutLen (addr val : Nat)
deriving DecidableEq, Repr

/-- The external collaborators: OpenSSL and the C allocator.  The first
argument of every entry point is the trace at the moment of the call; the
others are the arguments of the C call that the answer can depend on (an input
pointer stands for the bytes behind it, and `BIO_read` gets the `size_t`
length its caller passes). -/
structure Lib where
  /-- The codes `ERR_get_error` hands out before it answers `0`; the error
  queue of the library is a bounded ring, so this list is finite. -/
  errQueue : List Event → List Nat
  EVP_PKEY_CTX_new_id : List Event → Option Nat
  EVP_PKEY_keygen_init : List Event → Nat → Int
  EVP_PKEY_keygen : List Event → Nat → Int × Option Nat
  EVP_PKEY_CTX_new : List Event → Nat → Option Nat
  EVP_PKEY_encrypt_init : List Event → Nat → Int
  EVP_PKEY_decrypt_init : List Event → Nat → Int
  EVP_PKEY_encrypt : List Event → Nat → Option Nat → Nat → List Byte → Nat → OpResult
  EVP_PKEY_decrypt : List Event → Nat → Option Nat → Nat → List Byte → Nat → OpResult
  OPENSSL_malloc : List Event → Nat → Option Nat
  OPENSSL_zalloc : List Event → Nat → Option Nat
  BIO_new : List Event → Option Nat
  PEM_write_bio_PUBKEY : List Event → Nat → Nat → PemResult
  PEM_write_bio_PrivateKey : List Event → Nat → Nat → PemResult
  BIO_pending : List Event → Nat → Int
  BIO_read : List Event → Nat → Nat → Nat → ReadResult
  malloc : List Event → Nat → Option Nat

/-- Undefined behaviour the embedding makes explicit. -/
inductive Fault where
  | nullDeref
  | outOfBounds
deriving DecidableEq, Repr

/-- The C object `struct _sm2_context`. -/
structure sm2_context where
  key : Option Nat
  private_key : Option Nat
  public_key : Option Nat
deriving DecidableEq, Repr

/-- A non-null `sm2_context *`: the address and the object behind it. -/
structure ContextPtr where
  addr : Nat
  obj : sm2_context
deriving DecidableEq, Repr

/-- Machine state: the trace, the byte blocks that are live (a byte that was
never written is `none`), and the caller variables the output pointers of
`sm2_encrypt` / `sm2_decrypt` designate. -/
structure State where
  trace : List Event
  heap : Nat → Option (List (Option Byte))
  ptrCells : Nat → Option Nat
  sizeCells : Nat → Nat

/-- Append one step to the trace. -/
def State.emit (s : State) (e : Event) : State :=
  { s with trace := s.trace ++ [e] }

/-- Make `block` the content of the block at `p`. -/
def State.setBlock (s : State) (p : Nat) (block : List (Option Byte)) : State :=
  { s with heap := fun q => if q = p then some block else s.heap q }

/-- Forget the block at `p`. -/
def State.dropBlock (s : State) (p : Nat) : State :=
  { s with heap := fun q => if q = p then none else s.heap q }

/-- The statement `*out = val`. -/
def State.storeOut (s : State) (addr val : Nat) : State :=
  { s.emit (.storeOut addr val) with
    ptrCells := fun a => if a = addr then some val else s.ptrCells a }

/-- The statement `*outLen = val`. -/
def State.storeOutLen (s : State) (addr val : Nat) : State :=
  { s.emit (.storeOutLen addr val) with
    sizeCells := fun a => if a = addr then val else s.sizeCells a }

/-- Bytes `d` copied to the start of a block that holds them. -/
def writeBuf (buf : List (Option Byte)) (d : List Byte) : List (Option Byte) :=
  d.map some ++ buf.drop d.length

/-- A library routine writes the bytes `d` to the start of the block at `p`.
There is no resulting state when `d` does not fit the block: the write runs
past its end. -/
def State.fill (s : State) (p : Nat) (d : List Byte) : Option State :=
  match s.heap p with
  | some buf => if d.length ≤ buf.length then some (s.setBlock p (writeBuf buf d)) else none
  | none => none

/-- `OPENSSL_malloc(num)` and `OPENSSL_zalloc(num)`: `CRYPTO_malloc` returns
`NULL` for a request of zero bytes; otherwise the answer is the allocator's. -/
def opensslAlloc (answer : Option Nat) (num : Nat) : Option Nat :=
  if num = 0 then none else answer

/-- C function `log_print`: one line on the error stream.  The line is
identified by its priority and by the `__LINE__` of the call site, which fixes
the function name and the text. -/
def log_print (priority line : Nat) (s : State) : State :=
  s.emit (.log priority line)

/-- The macro `LOG(priority, text)`: one call of `log_print`. -/
def LOG (priority line : Nat) (s : State) : State :=
  log_print priority line s

/-- The loop of `print_openssl_errors` over the pending codes. -/
def drainErrors : List Nat → State → State
  | [], s => s.emit (.ERR_get_error 0)
  | err :: rest, s =>
    if err = 0 then s.emit (.ERR_get_error 0)
    else drainErrors rest
      (LOG LOG_ERR 28 ((s.emit (.ERR_get_error err)).emit (.ERR_error_string_n err)))

/-- C function `print_openssl_errors`. -/
def print_openssl_errors (L : Lib) (s : State) : State :=
  drainErrors (L.errQueue s.trace) s

/-- The label `end:` of `sm2_encrypt` and of `sm2_decrypt`. -/
def sm2_end (ret : Int) (op_ctx outData : Option Nat) (s : State) : Except Fault Int × State :=
  let s := match op_ctx with
    | some c => s.emit (.EVP_PKEY_CTX_free c)
    | none => s
  let s := match outData with
    | some p => if ret ≠ 0 then (s.emit (.OPENSSL_free p)).dropBlock p else s
    | none => s
  (.ok ret, s)

/-- C function `sm2_encrypt`. -/
def sm2_encrypt (L : Lib) (context : Option ContextPtr) (inp : Option (List Byte)) (inLen : Nat)
    (out outLen : Option Nat) (s : State) : Except Fault Int × State :=
  match context with
  | none => (.error .nullDeref, s)
  | some c =>
    match inp, c.obj.key, out, outLen with
    | some data, some key, some o, some ol =>
      let r := L.EVP_PKEY_CTX_new s.trace key
      let s := s.emit (.EVP_PKEY_CTX_new key r)
      match r with
      | none => sm2_end (-1) none none (LOG LOG_WARNING 188 s)
      | some enc_ctx =>
        let i := L.EVP_PKEY_encrypt_init s.trace enc_ctx
        let s := s.emit (.EVP_PKEY_encrypt_init enc_ctx i)
        if i ≤ 0 then
          sm2_end (-1) (some enc_ctx) none (print_openssl_errors L (LOG LOG_WARNING 193 s))
        else
          let q := L.EVP_PKEY_encrypt s.trace enc_ctx none 0 data inLen
          let s := s.emit (.EVP_PKEY_encrypt enc_ctx none 0 data inLen q)
          let outDataLen := toSize q.outlen
          if q.ret ≤ 0 then
            sm2_end (-1) (some enc_ctx) none (LOG LOG_WARNING 200 s)
          else
            let m := opensslAlloc (L.OPENSSL_malloc s.trace outDataLen) outDataLen
            let s := s.emit (.OPENSSL_malloc outDataLen m)
            match m with
            | none => sm2_end (-1) (some enc_ctx) none (LOG LOG_WARNING 206 s)
            | some outData =>
              let s := s.setBlock outData (List.replicate outDataLen none)
              let r2 := L.EVP_PKEY_encrypt s.trace enc_ctx (some outData) outDataLen data inLen
              let s := s.emit (.EVP_PKEY_encrypt enc_ctx (some outData) outDataLen data inLen r2)
              match s.fill outData r2.data with
              | none => (.error .outOfBounds, s)
              | some s =>
                let outDataLen := toSize r2.outlen
                if r2.ret ≤ 0 then
                  sm2_end (-1) (some enc_ctx) (some outData) (LOG LOG_WARNING 211 s)
                else
                  let s := s.storeOut o outData
                  let s := s.storeOutLen ol outDataLen
                  sm2_end 0 (some enc_ctx) (some outData) s
    | _, _, _, _ => sm2_end (-1) none none (LOG LOG_WARNING 181 s)

/-- C function `sm2_decrypt`. -/
def sm2_decrypt (L : Lib) (context : Option ContextPtr) (inp : Option (List Byte)) (inLen : Nat)
    (out outLen : Option Nat) (s : State) : Except Fault Int × State :=
  match context with
  | none => (.error .nullDeref, s)
  | some c =>
    match inp, c.obj.key, out, outLen with
    | some data, some key, some o, some ol =>
      let r := L.EVP_PKEY_CTX_new s.trace key
      let s := s.emit (.EVP_PKEY_CTX_new key r)
      match r with
      | none => sm2_end (-1) none none (LOG LOG_WARNING 244 s)
      | some dec_ctx =>
        let i := L.EVP_PKEY_decrypt_init s.trace dec_ctx
        let s := s.emit (.EVP_PKEY_decrypt_init dec_ctx i)
        if i ≤ 0 then
          sm2_end (-1) (some dec_ctx) none (print_openssl_errors L (LOG LOG_WARNING 249 s))
        else
          let q := L.EVP_PKEY_decrypt s.trace dec_ctx none 0 data inLen
          let s := s.emit (.EVP_PKEY_decrypt dec_ctx none 0 data inLen q)
          let outDataLen := toSize q.outlen
          if q.ret ≤ 0 then
            sm2_end (-1) (some dec_ctx) none (LOG LOG_WARNING 256 s)
          else
            let num := toSize (outDataLen + 1)
            let m := opensslAlloc (L.OPENSSL_zalloc s.trace num) num
            let s := s.emit (.OPENSSL_zalloc num m)
            match m with
            | none => sm2_end (-1) (some dec_ctx) none (LOG LOG_WARNING 261 s)
            | some outData =>
              let s := s.setBlock outData (List.replicate num (some 0))
              let r2 := L.EVP_PKEY_decrypt s.trace dec_ctx (some outData) outDataLen data inLen
              let s := s.emit (.EVP_PKEY_decrypt dec_ctx (some outData) outDataLen data inLen r2)
              match s.fill outData r2.data with
              | none => (.error .outOfBounds, s)
              | some s =>
                let outDataLen := toSize r2.outlen
                if r2.ret ≤ 0 then
                  sm2_end (-1) (some dec_ctx) (some outData) (LOG LOG_WARNING 266 s)
                else
                  let s := s.storeOut o outData
                  let s := s.storeOutLen ol outDataLen
                  sm2_end 0 (some dec_ctx) (some outData) s
    | _, _, _, _ => sm2_end (-1) none none (LOG LOG_WARNING 237 s)

/-- The statement `pkey[idx] = b` on the block at `p`. -/
def State.setByte (s : State) (p idx : Nat) (b : Byte) : State :=
  match s.heap p with
  | some buf => s.setBlock p (buf.set idx (some b))
  | none => s

/-- The label `end:` of `gen_sm2_key`. -/
def gen_end (pctx pkey : Option Nat) (s : State) : Option Nat × State :=
  match pctx with
  | some c => (pkey, s.emit (.EVP_PKEY_CTX_free c))
  | none => (pkey, s)

/-- C function `gen_sm2_key`. -/
def gen_sm2_key (L : Lib) (s : State) : Option Nat × State :=
  let s := s.emit .OPENSSL_init_crypto
  let r := L.EVP_PKEY_CTX_new_id s.trace
  let s := s.emit (.EVP_PKEY_CTX_new_id r)
  match r with
  | none => gen_end none none (LOG LOG_WARNING 54 s)
  | some pctx =>
    let i := L.EVP_PKEY_keygen_init s.trace pctx
    let s := s.emit (.EVP_PKEY_keygen_init pctx i)
    if i ≤ 0 then
      gen_end (some pctx) none (LOG LOG_WARNING 59 s)
    else
      let g := L.EVP_PKEY_keygen s.trace pctx
      let s := s.emit (.EVP_PKEY_keygen pctx g.1 g.2)
      if g.1 ≤ 0 then
        let s := print_openssl_errors L (LOG LOG_WARNING 64 s)
        match g.2 with
        | some pkey => gen_end (some pctx) none (s.emit (.EVP_PKEY_free pkey))
        | none => gen_end (some pctx) none s
      else
        gen_end (some pctx) g.2 s

/-- The label `end:` of `get_public_key` and of `get_private_key`. -/
def key_end (ret : Int) (bio pkey result : Option Nat) (s : State) :
    Except Fault (Option Nat) × State :=
  let s := match bio with
    | some b => s.emit (.BIO_free b)
    | none => s
  let s := match pkey with
    | some p => if ret ≠ 0 then (s.emit (.free p)).dropBlock p else s
    | none => s
  (.ok result, s)

/-- C function `get_public_key`. -/
def get_public_key (L : Lib) (key : Nat) (s : State) : Except Fault (Option Nat) × State :=
  let b := L.BIO_new s.trace
  let s := s.emit (.BIO_new b)
  match b with
  | none => key_end (-1) none none none (LOG LOG_WARNING 87 s)
  | some bio =>
    let w := L.PEM_write_bio_PUBKEY s.trace bio key
    let s := s.emit (.PEM_write_bio_PUBKEY bio key w)
    if w.ret ≤ 0 then
      key_end (-1) (some bio) none none (LOG LOG_WARNING 92 s)
    else
      let pend := L.BIO_pending s.trace bio
      let s := s.emit (.BIO_pending bio pend)
      let len := intToSize pend
      if len = 0 then
        key_end (-1) (some bio) none none (LOG LOG_WARNING 98 s)
      else
        let num := toSize (len + 1)
        let m := L.malloc s.trace num
        let s := s.emit (.malloc num m)
        match m with
        | none => key_end (-1) (some bio) none none (LOG LOG_WARNING 103 s)
        | some pkey =>
          let s := s.setBlock pkey (List.replicate num none)
          let rd := L.BIO_read s.trace bio pkey len
          let s := s.emit (.BIO_read bio pkey len rd)
          match s.fill pkey (rd.data.take rd.ret.toNat) with
          | none => (.error .outOfBounds, s)
          | some s =>
            if rd.ret ≤ 0 then
              key_end (-1) (some bio) (some pkey) none (LOG LOG_WARNING 107 s)
            else if len < num then
              key_end 0 (some bio) (some pkey) (some pkey) (s.setByte pkey len 0)
            else
              (.error .outOfBounds, s)

/-- C function `get_private_key`. -/
def get_private_key (L : Lib) (key : Nat) (s : State) : Except Fault (Option Nat) × State :=
  let b := L.BIO_new s.trace
  let s := s.emit (.BIO_new b)
  match b with
  | none => key_end (-1) none none none (LOG LOG_WARNING 132 s)
  | some bio =>
    let s := s.emit .ERR_clear_error
    let w := L.PEM_write_bio_PrivateKey s.trace bio key
    let s := s.emit (.PEM_write_bio_PrivateKey bio key w)
    if w.ret ≤ 0 then
      key_end (-1) (some bio) none none (LOG LOG_WARNING 139 (print_openssl_errors L s))
    else
      let pend := L.BIO_pending s.trace bio
      let s := s.emit (.BIO_pending bio pend)
      let len := intToSize pend
      if len = 0 then
        key_end (-1) (some bio) none none (LOG LOG_WARNING 145 s)
      else
        let num := toSize (len + 1)
        let m := L.malloc s.trace num
        let s := s.emit (.malloc num m)
        match m with
        | none => key_end (-1) (some bio) none none (LOG LOG_WARNING 150 s)
        | some pkey =>
          let s := s.setBlock pkey (List.replicate num none)
          let rd := L.BIO_read s.trace bio pkey len
          let s := s.emit (.BIO_read bio pkey len rd)
          match s.fill pkey (rd.data.take rd.ret.toNat) with
          | none => (.error .outOfBounds, s)
          | some s =>
            if rd.ret ≤ 0 then
              key_end (-1) (some bio) (some pkey) none (LOG LOG_WARNING 154 s)
            else if len < num then
              key_end 0 (some bio) (some pkey) (some pkey) (s.setByte pkey len 0)
            else
              (.error .outOfBounds, s)

/-- C function `new_sm2_context`. -/
def new_sm2_context (L : Lib) (s : State) : Except Fault (Option ContextPtr) × State :=
  match gen_sm2_key L s with
  | (none, s) => (.ok none, s)
  | (some key, s) =>
    let m := L.malloc s.trace sizeof_sm2_context
    let s := s.emit (.malloc sizeof_sm2_context m)
    match m with
    | none => (.ok none, s.emit (.EVP_PKEY_free key))
    | some ret =>
      let s := s.setBlock ret (List.replicate sizeof_sm2_context none)
      match get_private_key L key s with
      | (.error f, s) => (.error f, s)
      | (.ok private_key, s) =>
        match get_public_key L key s with
        | (.error f, s) => (.error f, s)
        | (.ok public_key, s) =>
          (.ok (some { addr := ret,
                       obj := { key := some key, private_key := private_key,
                                public_key := public_key } }), s)

/-- C function `free_sm2_context`. -/
def free_sm2_context (context : Option ContextPtr) (s : State) : State :=
  match context with
  | none => s
  | some c =>
    let s := match c.obj.key with
      | some k => s.emit (.EVP_PKEY_free k)
      | none => s
    let s := match c.obj.public_key with
      | some p => (s.emit (.free p)).dropBlock p
      | none => s
    let s := match c.obj.private_key with
      | some p => (s.emit (.free p)).dropBlock p
      | none => s
    (s.emit (.free c.addr)).dropBlock c.addr

/-- C function `get_sm2_public_key`. -/
def get_sm2_public_key (context : Option ContextPtr) : Except Fault (Option Nat) :=
  match context with
  | none => .error .nullDeref
  | some c => .ok c.obj.public_key

/-- C function `get_sm2_private_key`. -/
def get_sm2_private_key (context : Option ContextPtr) : Except Fault (Option Nat) :=
  match context with
  | none => .error .nullDeref
  | some c => .ok c.obj.private_key

/-- The steps recorded after state `s` on the way to state `s1`. -/
def State.since (s1 s : State) : List Event := s1.trace.drop s.trace.length

/-- The steps `drainErrors` appends to the trace. -/
def drainEvents : List Nat → List Event
  | [] => [.ERR_get_error 0]
  | err :: rest =>
    if err = 0 then [.ERR_get_error 0]
    else .ERR_get_error err :: .ERR_error_string_n err :: .log LOG_ERR 28 :: drainEvents rest

/-- Trace of a `sm2_encrypt` call that reaches the second invocation. -/
def encryptSteps (key : Nat) (data : List Byte) (inLen ctx : Nat) (i : Int) (q : OpResult)
    (p : Nat) (r2 : OpResult) : List Event :=
  [.EVP_PKEY_CTX_new key (some ctx), .EVP_PKEY_encrypt_init ctx i,
   .EVP_PKEY_encrypt ctx none 0 data inLen q,
   .OPENSSL_malloc (toSize q.outlen) (some p),
   .EVP_PKEY_encrypt ctx (some p) (toSize q.outlen) data inLen r2]

/-- The ways a call of `sm2_encrypt` with a key, an input and both output
pointers can go: one disjunct for each `goto end`, one for the success, and
one for a second invocation that writes past the end of its block. -/
def EncryptRun (L : Lib) (key : Nat) (data : List Byte) (inLen o ol : Nat) (s : State)
    (r : Except Fault Int × State) : Prop :=
  (L.EVP_PKEY_CTX_new s.trace key = none ∧
    r = (.ok (-1), { s with trace := s.trace ++
      [.EVP_PKEY_CTX_new key none, .log LOG_WARNING 188] }))
  ∨ (∃ ctx i l, i ≤ 0 ∧
    r = (.ok (-1), { s with trace := s.trace ++
      ([.EVP_PKEY_CTX_new key (some ctx), .EVP_PKEY_encrypt_init ctx i, .log LOG_WARNING 193]
        ++ drainEvents l ++ [.EVP_PKEY_CTX_free ctx]) }))
  ∨ (∃ ctx i q, 0 < i ∧ q.ret ≤ 0 ∧
    r = (.ok (-1), { s with trace := s.trace ++
      [.EVP_PKEY_CTX_new key (some ctx), .EVP_PKEY_encrypt_init ctx i,
       .EVP_PKEY_encrypt ctx none 0 data inLen q, .log LOG_WARNING 200,
       .EVP_PKEY_CTX_free ctx] }))
  ∨ (∃ ctx i q, 0 < i ∧ 0 < q.ret ∧
    r = (.ok (-1), { s with trace := s.trace ++
      [.EVP_PKEY_CTX_new key (some ctx), .EVP_PKEY_encrypt_init ctx i,
       .EVP_PKEY_encrypt ctx none 0 data inLen q,
       .OPENSSL_malloc (toSize q.outlen) none,
       .log LOG_WARNING 206, .EVP_PKEY_CTX_free ctx] }))
  ∨ (∃ ctx i q p r2, 0 < i ∧ 0 < q.ret ∧ r2.ret ≤ 0 ∧
    r = (.ok (-1), { s with
      trace := s.trace ++ (encryptSteps key data inLen ctx i q p r2 ++
        [.log LOG_WARNING 211, .EVP_PKEY_CTX_free ctx, .OPENSSL_free p])
      heap := fun x => if x = p then none else s.heap x }))
  ∨ (∃ ctx i q p r2 h1 h2, 0 < i ∧ 0 < q.ret ∧ 0 < r2.ret ∧
    L.EVP_PKEY_CTX_new s.trace key = some ctx ∧
    q = L.EVP_PKEY_encrypt h1 ctx none 0 data inLen ∧
    r2 = L.EVP_PKEY_encrypt h2 ctx (some p) (toSize q.outlen) data inLen ∧
    r2.data.length ≤ toSize q.outlen ∧
    r = (.ok 0,
      { trace := s.trace ++ (encryptSteps key data inLen ctx i q p r2 ++
          [.storeOut o p, .storeOutLen ol (toSize r2.outlen), .EVP_PKEY_CTX_free ctx])
        heap := fun x => if x = p then
            some (writeBuf (List.replicate (toSize q.outlen) none) r2.data)
          else s.heap x
        ptrCells := fun a => if a = o then some p else s.ptrCells a
        sizeCells := fun a => if a = ol then toSize r2.outlen else s.sizeCells a }))
  ∨ r.1 = .error .outOfBounds

/-- Trace of a `sm2_decrypt` call that reaches the second invocation. -/
def decryptSteps (key : Nat) (data : List Byte) (inLen ctx : Nat) (i : Int) (q : OpResult)
    (p : Nat) (r2 : OpResult) : List Event :=
  [.EVP_PKEY_CTX_new key (some ctx), .EVP_PKEY_decrypt_init ctx i,
   .EVP_PKEY_decrypt ctx none 0 data inLen q,
   .OPENSSL_zalloc (toSize (toSize q.outlen + 1)) (some p),
   .EVP_PKEY_decrypt ctx (some p) (toSize q.outlen) data inLen r2]

/-- The ways a call of `sm2_decrypt` with a key, an input and both output
pointers can go: one disjunct for each `goto end`, one for the success, and
one for a second invocation that writes past the end of its block. -/
def DecryptRun (L : Lib) (key : Nat) (data : List Byte) (inLen o ol : Nat) (s : State)
    (r : Except Fault Int × State) : Prop :=
  (L.EVP_PKEY_CTX_new s.trace key = none ∧
    r = (.ok (-1), { s with trace := s.trace ++
      [.EVP_PKEY_CTX_new key none, .log LOG_WARNING 244] }))
  ∨ (∃ ctx i l, i ≤ 0 ∧
    r = (.ok (-1), { s with trace := s.trace ++
      ([.EVP_PKEY_CTX_new key (some ctx), .EVP_PKEY_decrypt_init ctx i, .log LOG_WARNING 249]
        ++ drainEvents l ++ [.EVP_PKEY_CTX_free ctx]) }))
  ∨ (∃ ctx i q, 0 < i ∧ q.ret ≤ 0 ∧
    r = (.ok (-1), { s with trace := s.trace ++
      [.EVP_PKEY_CTX_new key (some ctx), .EVP_PKEY_decrypt_init ctx i,
       .EVP_PKEY_decrypt ctx none 0 data inLen q, .log LOG_WARNING 256,
       .EVP_PKEY_CTX_free ctx] }))
  ∨ (∃ ctx i q, 0 < i ∧ 0 < q.ret ∧
    r = (.ok (-1), { s with trace := s.trace ++
      [.EVP_PKEY_CTX_new key (some ctx), .EVP_PKEY_decrypt_init ctx i,
       .EVP_PKEY_decrypt ctx none 0 data inLen q,
       .OPENSSL_zalloc (toSize (toSize q.outlen + 1)) none,
       .log LOG_WARNING 261, .EVP_PKEY_CTX_free ctx] }))
  ∨ (∃ ctx i q p r2, 0 < i ∧ 0 < q.ret ∧ r2.ret ≤ 0 ∧
    r = (.ok (-1), { s with
      trace := s.trace ++ (decryptSteps key data inLen ctx i q p r2 ++
        [.log LOG_WARNING 266, .EVP_PKEY_CTX_free ctx, .OPENSSL_free p])
      heap := fun x => if x = p then none else s.heap x }))
  ∨ (∃ ctx i q p r2 h1 h2, 0 < i ∧ 0 < q.ret ∧ 0 < r2.ret ∧
    L.EVP_PKEY_CTX_new s.trace key = some ctx ∧
    q = L.EVP_PKEY_decrypt h1 ctx none 0 data inLen ∧
    r2 = L.EVP_PKEY_decrypt h2 ctx (some p) (toSize q.outlen) data inLen ∧
    r2.data.length ≤ toSize (toSize q.outlen + 1) ∧
    r = (.ok 0,
      { trace := s.trace ++ (decryptSteps key data inLen ctx i q p r2 ++
          [.storeOut o p, .storeOutLen ol (toSize r2.outlen), .EVP_PKEY_CTX_free ctx])
        heap := fun x => if x = p then
            some (writeBuf (List.replicate (toSize (toSize q.outlen + 1)) (some 0)) r2.data)
          else s.heap x
        ptrCells := fun a => if a = o then some p else s.ptrCells a
        sizeCells := fun a => if a = ol then toSize r2.outlen else s.sizeCells a }))
  ∨ r.1 = .error .outOfBounds

/-- The state of `new_sm2_context` once `malloc(sizeof(sm2_context))` has
answered with the address `a`. -/
def contextAllocated (g : State) (a : Nat) : State :=
  (g.emit (.malloc sizeof_sm2_context (some a))).setBlock a
    (List.replicate sizeof_sm2_context none)

/-- Bytes read from memory; reading a byte that was never written yields
nothing. -/
def readBytes : List (Option Byte) → Option (List Byte)
  | [] => some []
  | none :: _ => none
  | some b :: rest => (readBytes rest).map (b :: ·)

/-- What the caller finds behind `out` and `outLen`: the first `*outLen` bytes
of the block `*out`. -/
def State.outBytes (s : State) (o ol : Nat) : Option (List Byte) :=
  match s.ptrCells o with
  | none => none
  | some p =>
    match s.heap p with
    | none => none
    | some block =>
      if s.sizeCells ol ≤ block.length then readBytes (block.take (s.sizeCells ol)) else none

/-- The SM2 primitives of the library are inverse to each other under `key`,
in the two-phase protocol.  Take a plaintext `P`, an encrypt operation on a
context for `key` that succeeds when told the size `qe` its size query
reported, and the ciphertext `C` made of the bytes it reports.  Take then a
context for `key` that is initialised for decryption with success.  The
decrypt size query on `C` succeeds, and the decrypt operation that follows the
query and the allocation of a block, told the size the query reported,
succeeds, writes no more than that size, reports the length of `P` and has
written `P` first.  Nothing is asked of an operation that is told another
capacity, nor of a context that was not initialised. -/
def Lib.RoundTrip (L : Lib) (key : Nat) : Prop :=
  ∀ (h1 h2 h3 : List Event) (ectx p : Nat) (P : List Byte) (qe re : OpResult) (C : List Byte),
    L.EVP_PKEY_CTX_new h1 key = some ectx →
    L.EVP_PKEY_encrypt h2 ectx none 0 P P.length = qe →
    L.EVP_PKEY_encrypt h3 ectx (some p) (toSize qe.outlen) P P.length = re →
    0 < re.ret →
    C = re.data.take (toSize re.outlen) →
    ∀ (h4 : List Event) (dctx : Nat) (i : Int) (qd : OpResult),
      L.EVP_PKEY_CTX_new h4 key = some dctx →
      L.EVP_PKEY_decrypt_init (h4 ++ [.EVP_PKEY_CTX_new key (some dctx)]) dctx = i →
      0 < i →
      L.EVP_PKEY_decrypt (h4 ++ [.EVP_PKEY_CTX_new key (some dctx),
          .EVP_PKEY_decrypt_init dctx i]) dctx none 0 C C.length = qd →
      0 < qd.ret
      ∧ ∀ (k q : Nat) (rd : OpResult),
        L.EVP_PKEY_decrypt (h4 ++ [.EVP_PKEY_CTX_new key (some dctx),
            .EVP_PKEY_decrypt_init dctx i, .EVP_PKEY_decrypt dctx none 0 C C.length qd,
            .OPENSSL_zalloc k (some q)]) dctx (some q) (toSize qd.outlen) C C.length = rd →
        0 < rd.ret
        ∧ rd.data.length ≤ toSize qd.outlen
        ∧ toSize rd.outlen = P.length
        ∧ rd.data.take P.length = P

/-- A state with an empty trace, no live block and zeroed caller variables. -/
def emptyState : State :=
  { trace := [], heap := fun _ => none, ptrCells := fun _ => none, sizeCells := fun _ => 0 }

/-- The bytes of the last PEM serialization recorded in a trace. -/
def lastWritten (h : List Event) : List Byte :=
  h.foldl (fun acc e =>
    match e with
    | .PEM_write_bio_PUBKEY _ _ w => w.written
    | .PEM_write_bio_PrivateKey _ _ w => w.written
    | _ => acc) []

/-- A stand-in for the library in which every call succeeds.  The ciphertext of
`P` is the byte `7` followed by `P`; the encrypt size query reports two bytes
more than that.  The decrypt size query reports the length of the ciphertext,
and the decrypt operation writes the plaintext and then pads with `255` up to
the size it is told, as the SM2 decryption of libcrypto does.  Neither
operation looks at the capacity to decide whether it succeeds.  A memory BIO
hands back what the last serializer wrote; each `malloc` answers with a fresh
address. -/
def demoLib : Lib where
  errQueue := fun _ => []
  EVP_PKEY_CTX_new_id := fun _ => some 1
  EVP_PKEY_keygen_init := fun _ _ => 1
  EVP_PKEY_keygen := fun _ _ => (1, some 7)
  EVP_PKEY_CTX_new := fun _ _ => some 2
  EVP_PKEY_encrypt_init := fun _ _ => 1
  EVP_PKEY_decrypt_init := fun _ _ => 1
  EVP_PKEY_encrypt := fun _ _ out _ inp inLen =>
    if inLen + 4 < SIZE_MOD then
      match out with
      | none => ⟨1, inLen + 3, []⟩
      | some _ => ⟨1, inLen + 1, 7 :: inp.take inLen⟩
    else ⟨0, 0, []⟩
  EVP_PKEY_decrypt := fun _ _ out avail inp inLen =>
    match out with
    | none => ⟨1, inLen, []⟩
    | some _ =>
      ⟨1, inLen - 1, (inp.take inLen).drop 1 ++ List.replicate (avail - (inLen - 1)) 255⟩
  OPENSSL_malloc := fun _ _ => some 100
  OPENSSL_zalloc := fun _ _ => some 200
  BIO_new := fun _ => some 3
  PEM_write_bio_PUBKEY := fun _ _ _ => ⟨1, [45, 80, 85, 66]⟩
  PEM_write_bio_PrivateKey := fun _ _ _ => ⟨1, [45, 80, 82]⟩
  BIO_pending := fun h _ => (lastWritten h).length
  BIO_read := fun h _ _ dlen => ⟨dlen, (lastWritten h).take dlen⟩
  malloc := fun h _ => some (1000 + h.length)

/-- A context around the key handle `7`, without texts. -/
def demoContext : ContextPtr :=
  { addr := 50, obj := { key := some 7, private_key := none, public_key := none } }

/-- A context whose key handle is null. -/
def keylessContext : ContextPtr :=
  { addr := 50, obj := { key := none, private_key := none, public_key := none } }

/-- The library `demoLib` with a second `EVP_PKEY_encrypt` that fails. -/
def failingCipherLib : Lib :=
  { demoLib with
    EVP_PKEY_encrypt := fun _ _ out _ _ inLen =>
      match out with
      | none => ⟨1, inLen + 1, []⟩
      | some _ => ⟨0, 0, []⟩ }

/-- The library `demoLib` with a `BIO_read` that delivers three of the five
bytes the serializer wrote. -/
def shortReadLib : Lib :=
  { demoLib with
    PEM_write_bio_PUBKEY := fun _ _ _ => ⟨1, [45, 45, 45, 45, 45]⟩
    PEM_write_bio_PrivateKey := fun _ _ _ => ⟨1, [45, 45, 45, 45, 45]⟩
    BIO_read := fun h _ _ _ => ⟨3, lastWritten h⟩ }

/-- The library `demoLib` with a C allocator that is out of memory. -/
def noMemoryLib : Lib :=
  { demoLib with malloc := fun _ _ => none }

/-- The library `demoLib` with an `OPENSSL_zalloc` that is out of memory. -/
def noZallocLib : Lib :=
  { demoLib with OPENSSL_zalloc := fun _ _ => none }

/-- The library `demoLib` without memory BIOs. -/
def noBioLib : Lib :=
  { demoLib with BIO_new := fun _ => none }

/-- The eleven bytes of `hello world`. -/
def helloWorld : List Byte := [104, 101, 108, 108, 111, 32, 119, 111, 114, 108, 100]

/-- The loop of `print_openssl_errors` only appends `drainEvents` to the trace. -/
theorem drainErrors_eq (l : List Nat) (s : State) :
    drainErrors l s = { s with trace := s.trace ++ drainEvents l } := by
  induction l generalizing s with
  | nil => rfl
  | cons err rest ih =>
    by_cases h : err = 0
    · simp [drainErrors, drainEvents, h, State.emit]
    · simp [drainErrors, drainEvents, h, ih, State.emit, LOG, log_print]

/-- The steps of the drain loop are error-queue calls and lines of `log_print`. -/
theorem mem_drainEvents (l : List Nat) (e : Event) (h : e ∈ drainEvents l) :
    (∃ code, e = .ERR_get_error code) ∨ (∃ code, e = .ERR_error_string_n code)
      ∨ e = .log LOG_ERR 28 := by
  induction l with
  | nil =>
    simp only [drainEvents, List.mem_singleton] at h
    exact Or.inl ⟨0, h⟩
  | cons err rest ih =>
    by_cases h0 : err = 0
    · simp only [drainEvents, h0, if_true, List.mem_singleton] at h
      exact Or.inl ⟨0, h⟩
    · simp only [drainEvents, h0, if_false, List.mem_cons] at h
      rcases h with h | h | h | h
      · exact Or.inl ⟨err, h⟩
      · exact Or.inr (Or.inl ⟨err, h⟩)
      · exact Or.inr (Or.inr h)
      · exact ih h

/-- The drain loop releases no operation context. -/
theorem count_drainEvents_CTX_free (l : List Nat) (ctx : Nat) :
    (drainEvents l).count (.EVP_PKEY_CTX_free ctx) = 0 := by
  rw [List.count_eq_zero]
  intro h
  rcases mem_drainEvents l _ h with ⟨_, h⟩ | ⟨_, h⟩ | h <;> cases h

/-- The steps recorded since `s` in a state whose trace extends that of `s`. -/
theorem since_append (s : State) (evs : List Event) (h : Nat → Option (List (Option Byte)))
    (pc : Nat → Option Nat) (sc : Nat → Nat) :
    State.since { trace := s.trace ++ evs, heap := h, ptrCells := pc, sizeCells := sc } s
      = evs := by
  simp [State.since]

/-- Either one of the four tested pointers is null, or all four are there. -/
theorem args_cases (c : ContextPtr) (inp : Option (List Byte)) (out outLen : Option Nat) :
    (c.obj.key = none ∨ inp = none ∨ out = none ∨ outLen = none) ∨
      ∃ key data o ol, c.obj.key = some key ∧ inp = some data ∧ out = some o
        ∧ outLen = some ol := by
  cases hk : c.obj.key <;> cases inp <;> cases out <;> cases outLen <;> simp

/-- Every call of `sm2_encrypt` that passes the parameter test goes one of the ways of
`EncryptRun`. -/
theorem sm2_encrypt_run (L : Lib) (c : ContextPtr) (key : Nat) (data : List Byte)
    (inLen o ol : Nat) (s : State) (hk : c.obj.key = some key) :
    EncryptRun L key data inLen o ol s
      (sm2_encrypt L (some c) (some data) inLen (some o) (some ol) s) := by
  simp only [sm2_encrypt, hk]
  cases h1 : L.EVP_PKEY_CTX_new s.trace key with
  | none =>
    left
    simp [h1, sm2_end, LOG, log_print, State.emit]
  | some ctx =>
    right
    simp only []
    generalize L.EVP_PKEY_encrypt_init _ ctx = i
    by_cases hi : i ≤ 0
    · left
      simp only [hi, if_true, print_openssl_errors]
      generalize L.errQueue _ = l
      exact ⟨ctx, i, l, hi, by simp [sm2_end, LOG, log_print, State.emit, drainErrors_eq]⟩
    · right
      simp only [hi, if_false]
      generalize hq : L.EVP_PKEY_encrypt _ ctx none 0 data inLen = q
      by_cases hqr : q.ret ≤ 0
      · left
        exact ⟨ctx, i, q, by omega, hqr, by simp [hqr, sm2_end, LOG, log_print, State.emit]⟩
      · right
        simp only [hqr, if_false]
        generalize L.OPENSSL_malloc _ (toSize q.outlen) = ans
        cases hm : opensslAlloc ans (toSize q.outlen) with
        | none =>
          left
          exact ⟨ctx, i, q, by omega, by omega, by simp [sm2_end, LOG, log_print, State.emit]⟩
        | some p =>
          right
          simp only []
          generalize hr2 : L.EVP_PKEY_encrypt _ ctx (some p) (toSize q.outlen) data inLen = r2
          by_cases hfit : r2.data.length ≤ toSize q.outlen
          · by_cases hr : r2.ret ≤ 0
            · left
              refine ⟨ctx, i, q, p, r2, by omega, by omega, hr, ?_⟩
              simp [hr, hfit, sm2_end, LOG, log_print, State.emit, State.fill, State.setBlock,
                State.dropBlock, encryptSteps]
              funext x
              split_ifs <;> rfl
            · right; left
              refine ⟨ctx, i, q, p, r2, _, _, by omega, by omega, by omega, h1, hq.symm,
                hr2.symm, hfit, ?_⟩
              simp [hr, hfit, sm2_end, LOG, log_print, State.emit, State.fill, State.setBlock,
                State.storeOut, State.storeOutLen, encryptSteps]
              funext x
              split_ifs <;> rfl
          · right; right
            simp [hfit, State.emit, State.fill, State.setBlock]

/-- Every call of `sm2_decrypt` that passes the parameter test goes one of the ways of
`DecryptRun`. -/
theorem sm2_decrypt_run (L : Lib) (c : ContextPtr) (key : Nat) (data : List Byte)
    (inLen o ol : Nat) (s : State) (hk : c.obj.key = some key) :
    DecryptRun L key data inLen o ol s
      (sm2_decrypt L (some c) (some data) inLen (some o) (some ol) s) := by
  simp only [sm2_decrypt, hk]
  cases h1 : L.EVP_PKEY_CTX_new s.trace key with
  | none =>
    left
    simp [h1, sm2_end, LOG, log_print, State.emit]
  | some ctx =>
    right
    simp only []
    generalize L.EVP_PKEY_decrypt_init _ ctx = i
    by_cases hi : i ≤ 0
    · left
      simp only [hi, if_true, print_openssl_errors]
      generalize L.errQueue _ = l
      exact ⟨ctx, i, l, hi, by simp [sm2_end, LOG, log_print, State.emit, drainErrors_eq]⟩
    · right
      simp only [hi, if_false]
      generalize hq : L.EVP_PKEY_decrypt _ ctx none 0 data inLen = q
      by_cases hqr : q.ret ≤ 0
      · left
        exact ⟨ctx, i, q, by omega, hqr, by simp [hqr, sm2_end, LOG, log_print, State.emit]⟩
      · right
        simp only [hqr, if_false]
        generalize L.OPENSSL_zalloc _ (toSize (toSize q.outlen + 1)) = ans
        cases hm : opensslAlloc ans (toSize (toSize q.outlen + 1)) with
        | none =>
          left
          exact ⟨ctx, i, q, by omega, by omega, by simp [sm2_end, LOG, log_print, State.emit]⟩
        | some p =>
          right
          simp only []
          generalize hr2 : L.EVP_PKEY_decrypt _ ctx (some p) (toSize q.outlen) data inLen = r2
          by_cases hfit : r2.data.length ≤ toSize (toSize q.outlen + 1)
          · by_cases hr : r2.ret ≤ 0
            · left
              refine ⟨ctx, i, q, p, r2, by omega, by omega, hr, ?_⟩
              simp [hr, hfit, sm2_end, LOG, log_print, State.emit, State.fill, State.setBlock,
                State.dropBlock, decryptSteps]
              funext x
              split_ifs <;> rfl
            · right; left
              refine ⟨ctx, i, q, p, r2, _, _, by omega, by omega, by omega, h1, hq.symm,
                hr2.symm, hfit, ?_⟩
              simp [hr, hfit, sm2_end, LOG, log_print, State.emit, State.fill, State.setBlock,
                State.storeOut, State.storeOutLen, decryptSteps]
              funext x
              split_ifs <;> rfl
          · right; right
            simp [hfit, State.emit, State.fill, State.setBlock]

/-- With a context, a call that lacks the key, the input or an output pointer
takes the first `goto end` of `sm2_encrypt`. -/
theorem sm2_encrypt_invalid (L : Lib) (c : ContextPtr) (inp : Option (List Byte)) (inLen : Nat)
    (out outLen : Option Nat) (s : State)
    (h : c.obj.key = none ∨ inp = none ∨ out = none ∨ outLen = none) :
    sm2_encrypt L (some c) inp inLen out outLen s
      = (.ok (-1), { s with trace := s.trace ++ [.log LOG_WARNING 181] }) := by
  unfold sm2_encrypt
  rcases h with h | h | h | h
  · cases inp <;> cases out <;> cases outLen <;> simp [h, sm2_end, LOG, log_print, State.emit]
  · subst h; simp [sm2_end, LOG, log_print, State.emit]
  · subst h; cases inp <;> cases c.obj.key <;> simp [sm2_end, LOG, log_print, State.emit]
  · subst h
    cases inp <;> cases c.obj.key <;> cases out <;> simp [sm2_end, LOG, log_print, State.emit]

/-- With a context, a call that lacks the key, the input or an output pointer
takes the first `goto end` of `sm2_decrypt`. -/
theorem sm2_decrypt_invalid (L : Lib) (c : ContextPtr) (inp : Option (List Byte)) (inLen : Nat)
    (out outLen : Option Nat) (s : State)
    (h : c.obj.key = none ∨ inp = none ∨ out = none ∨ outLen = none) :
    sm2_decrypt L (some c) inp inLen out outLen s
      = (.ok (-1), { s with trace := s.trace ++ [.log LOG_WARNING 237] }) := by
  unfold sm2_decrypt
  rcases h with h | h | h | h
  · cases inp <;> cases out <;> cases outLen <;> simp [h, sm2_end, LOG, log_print, State.emit]
  · subst h; simp [sm2_end, LOG, log_print, State.emit]
  · subst h; cases inp <;> cases c.obj.key <;> simp [sm2_end, LOG, log_print, State.emit]
  · subst h
    cases inp <;> cases c.obj.key <;> cases out <;> simp [sm2_end, LOG, log_print, State.emit]

/-- C1: with a context, a call of `sm2_encrypt` or `sm2_decrypt` whose key
handle, input pointer, output pointer or length pointer is null returns `-1`
and leaves a state that differs from the initial one by a single diagnostic
line: no library call, no allocation, no store through `out` or `outLen`. -/
theorem sm2_missing_argument_rejected (L : Lib) (c : ContextPtr) (inp : Option (List Byte))
    (inLen : Nat) (out outLen : Option Nat) (s : State)
    (h : c.obj.key = none ∨ inp = none ∨ out = none ∨ outLen = none) :
    sm2_encrypt L (some c) inp inLen out outLen s
        = (.ok (-1), { s with trace := s.trace ++ [.log LOG_WARNING 181] })
    ∧ sm2_decrypt L (some c) inp inLen out outLen s
        = (.ok (-1), { s with trace := s.trace ++ [.log LOG_WARNING 237] })
    ∧ (-1 : Int) ≠ 0 :=
  ⟨sm2_encrypt_invalid L c inp inLen out outLen s h,
   sm2_decrypt_invalid L c inp inLen out outLen s h, by decide⟩

/-- The statement of C1 at a context without key handle. -/
theorem sm2_missing_argument_rejected_witness :
    (keylessContext.obj.key = none ∨ (some [1, 2] : Option (List Byte)) = none
        ∨ (some 1 : Option Nat) = none ∨ (some 2 : Option Nat) = none)
    ∧ sm2_encrypt demoLib (some keylessContext) (some [1, 2]) 2 (some 1) (some 2) emptyState
        = (.ok (-1), { emptyState with trace := emptyState.trace ++ [.log LOG_WARNING 181] })
    ∧ sm2_decrypt demoLib (some keylessContext) (some [1, 2]) 2 (some 1) (some 2) emptyState
        = (.ok (-1), { emptyState with trace := emptyState.trace ++ [.log LOG_WARNING 237] })
    ∧ (-1 : Int) ≠ 0 :=
  ⟨Or.inl rfl,
   sm2_missing_argument_rejected demoLib keylessContext (some [1, 2]) 2 (some 1) (some 2)
     emptyState (Or.inl rfl)⟩

/-- C2: with a null context both `sm2_encrypt` and `sm2_decrypt` read
`context->key` before any test: the call is a null dereference, it returns no
status, whatever the other arguments are. -/
theorem sm2_null_context_dereferenced (L : Lib) (inp : Option (List Byte)) (inLen : Nat)
    (out outLen : Option Nat) (s : State) :
    sm2_encrypt L none inp inLen out outLen s = (.error .nullDeref, s)
    ∧ sm2_decrypt L none inp inLen out outLen s = (.error .nullDeref, s) :=
  ⟨rfl, rfl⟩

/-- C4: when `sm2_encrypt` or `sm2_decrypt` returns a nonzero status, the
variables behind `out` and `outLen` hold what they held before the call and no
store through them was made; every block the call obtained from the allocator
was released exactly once and is gone; every operation context the call
created was released exactly once. -/
theorem sm2_failure_hands_nothing_over (L : Lib) (context : Option ContextPtr)
    (inp : Option (List Byte)) (inLen : Nat) (out outLen : Option Nat) (s : State) :
    (∀ ret, (sm2_encrypt L context inp inLen out outLen s).1 = .ok ret → ret ≠ 0 →
      (sm2_encrypt L context inp inLen out outLen s).2.ptrCells = s.ptrCells
      ∧ (sm2_encrypt L context inp inLen out outLen s).2.sizeCells = s.sizeCells
      ∧ (∀ a v, Event.storeOut a v ∉ (sm2_encrypt L context inp inLen out outLen s).2.since s
          ∧ Event.storeOutLen a v ∉ (sm2_encrypt L context inp inLen out outLen s).2.since s)
      ∧ (∀ num p, Event.OPENSSL_malloc num (some p)
            ∈ (sm2_encrypt L context inp inLen out outLen s).2.since s →
          ((sm2_encrypt L context inp inLen out outLen s).2.since s).count (.OPENSSL_free p) = 1
          ∧ (sm2_encrypt L context inp inLen out outLen s).2.heap p = none)
      ∧ (∀ k ctx, Event.EVP_PKEY_CTX_new k (some ctx)
            ∈ (sm2_encrypt L context inp inLen out outLen s).2.since s →
          ((sm2_encrypt L context inp inLen out outLen s).2.since s).count
            (.EVP_PKEY_CTX_free ctx) = 1))
    ∧ (∀ ret, (sm2_decrypt L context inp inLen out outLen s).1 = .ok ret → ret ≠ 0 →
      (sm2_decrypt L context inp inLen out outLen s).2.ptrCells = s.ptrCells
      ∧ (sm2_decrypt L context inp inLen out outLen s).2.sizeCells = s.sizeCells
      ∧ (∀ a v, Event.storeOut a v ∉ (sm2_decrypt L context inp inLen out outLen s).2.since s
          ∧ Event.storeOutLen a v ∉ (sm2_decrypt L context inp inLen out outLen s).2.since s)
      ∧ (∀ num p, Event.OPENSSL_zalloc num (some p)
            ∈ (sm2_decrypt L context inp inLen out outLen s).2.since s →
          ((sm2_decrypt L context inp inLen out outLen s).2.since s).count (.OPENSSL_free p) = 1
          ∧ (sm2_decrypt L context inp inLen out outLen s).2.heap p = none)
      ∧ (∀ k ctx, Event.EVP_PKEY_CTX_new k (some ctx)
            ∈ (sm2_decrypt L context inp inLen out outLen s).2.since s →
          ((sm2_decrypt L context inp inLen out outLen s).2.since s).count
            (.EVP_PKEY_CTX_free ctx) = 1)) := by
  cases context with
  | none => exact ⟨fun ret h _ => (by cases h), fun ret h _ => (by cases h)⟩
  | some c =>
    rcases args_cases c inp out outLen with hbad | ⟨key, data, o, ol, hk, rfl, rfl, rfl⟩
    · rw [sm2_encrypt_invalid L c inp inLen out outLen s hbad,
        sm2_decrypt_invalid L c inp inLen out outLen s hbad]
      simp [since_append]
    · constructor
      · rcases sm2_encrypt_run L c key data inLen o ol s hk with
          ⟨_, h⟩ | ⟨ctx, i, l, hi, h⟩ | ⟨ctx, i, q, hi, hq, h⟩ | ⟨ctx, i, q, hi, hq, h⟩
          | ⟨ctx, i, q, p, r2, hi, hq, hr, h⟩ | ⟨ctx, i, q, p, r2, h1, h2, hi, hq, hr, _, _, _, _, h⟩ | hf
        · rw [h]; simp [since_append]
        · rw [h]
          intro ret _ _
          refine ⟨rfl, rfl, ?_, ?_, ?_⟩
          · intro a v
            constructor <;> simp only [since_append] <;> intro hm <;>
              simp only [List.mem_append, List.mem_cons, List.mem_singleton, List.mem_nil_iff,
                or_false, false_or, reduceCtorEq] at hm <;>
              rcases mem_drainEvents l _ hm with ⟨_, h⟩ | ⟨_, h⟩ | h <;> cases h
          · intro num p hm
            simp only [since_append, List.mem_append, List.mem_cons, List.mem_singleton,
              List.mem_nil_iff, or_false, false_or, reduceCtorEq] at hm
            rcases mem_drainEvents l _ hm with ⟨_, h⟩ | ⟨_, h⟩ | h <;> cases h
          · intro k ctx2 hm
            simp only [since_append, List.mem_append, List.mem_cons, List.mem_singleton,
              List.mem_nil_iff, or_false, false_or, reduceCtorEq, Event.EVP_PKEY_CTX_new.injEq,
              Option.some.injEq] at hm
            rcases hm with ⟨_, rfl⟩ | hm
            · simp [since_append, List.count_cons, count_drainEvents_CTX_free]
            · rcases mem_drainEvents l _ hm with ⟨_, h⟩ | ⟨_, h⟩ | h <;> cases h
        · rw [h]; simp [since_append, List.count_cons]
        · rw [h]; simp [since_append, List.count_cons]
        · rw [h]; simp [since_append, List.count_cons, encryptSteps]
        · rw [h]; simp
        · intro ret h; rw [hf] at h; cases h
      · rcases sm2_decrypt_run L c key data inLen o ol s hk with
          ⟨_, h⟩ | ⟨ctx, i, l, hi, h⟩ | ⟨ctx, i, q, hi, hq, h⟩ | ⟨ctx, i, q, hi, hq, h⟩
          | ⟨ctx, i, q, p, r2, hi, hq, hr, h⟩ | ⟨ctx, i, q, p, r2, h1, h2, hi, hq, hr, _, _, _, _, h⟩ | hf
        · rw [h]; simp [since_append]
        · rw [h]
          intro ret _ _
          refine ⟨rfl, rfl, ?_, ?_, ?_⟩
          · intro a v
            constructor <;> simp only [since_append] <;> intro hm <;>
              simp only [List.mem_append, List.mem_cons, List.mem_singleton, List.mem_nil_iff,
                or_false, false_or, reduceCtorEq] at hm <;>
              rcases mem_drainEvents l _ hm with ⟨_, h⟩ | ⟨_, h⟩ | h <;> cases h
          · intro num p hm
            simp only [since_append, List.mem_append, List.mem_cons, List.mem_singleton,
              List.mem_nil_iff, or_false, false_or, reduceCtorEq] at hm
            rcases mem_drainEvents l _ hm with ⟨_, h⟩ | ⟨_, h⟩ | h <;> cases h
          · intro k ctx2 hm
            simp only [since_append, List.mem_append, List.mem_cons, List.mem_singleton,
              List.mem_nil_iff, or_false, false_or, reduceCtorEq, Event.EVP_PKEY_CTX_new.injEq,
              Option.some.injEq] at hm
            rcases hm with ⟨_, rfl⟩ | hm
            · simp [since_append, List.count_cons, count_drainEvents_CTX_free]
            · rcases mem_drainEvents l _ hm with ⟨_, h⟩ | ⟨_, h⟩ | h <;> cases h
        · rw [h]; simp [since_append, List.count_cons]
        · rw [h]; simp [since_append, List.count_cons]
        · rw [h]; simp [since_append, List.count_cons, decryptSteps]
        · rw [h]; simp
        · intro ret h; rw [hf] at h; cases h

/-- The statement of C4 at a call of `sm2_encrypt` whose second invocation
fails: the block `100` was allocated and is released. -/
theorem sm2_failure_hands_nothing_over_witness :
    (sm2_encrypt failingCipherLib (some demoContext) (some [104, 105]) 2 (some 1) (some 2)
        emptyState).1 = .ok (-1)
    ∧ (-1 : Int) ≠ 0
    ∧ Event.OPENSSL_malloc 3 (some 100)
        ∈ (sm2_encrypt failingCipherLib (some demoContext) (some [104, 105]) 2 (some 1) (some 2)
            emptyState).2.since emptyState
    ∧ ((sm2_encrypt failingCipherLib (some demoContext) (some [104, 105]) 2 (some 1) (some 2)
        emptyState).2.since emptyState).count (.OPENSSL_free 100) = 1
    ∧ (sm2_encrypt failingCipherLib (some demoContext) (some [104, 105]) 2 (some 1) (some 2)
        emptyState).2.heap 100 = none
    ∧ (sm2_encrypt failingCipherLib (some demoContext) (some [104, 105]) 2 (some 1) (some 2)
        emptyState).2.ptrCells = emptyState.ptrCells :=
  have h := (sm2_failure_hands_nothing_over failingCipherLib (some demoContext)
    (some [104, 105]) 2 (some 1) (some 2) emptyState).1 (-1) rfl (by decide)
  ⟨rfl, by decide, by decide, (h.2.2.2.1 3 100 (by decide)).1,
   (h.2.2.2.1 3 100 (by decide)).2, h.1⟩

/-- C8: `free_sm2_context(NULL)` changes nothing.  For a context it appends to
the trace the release of the key handle (if any), of the public text (if any),
of the private text (if any) and of the context, in this order and nothing
else; the released blocks are gone and every other block is as before. -/
theorem free_sm2_context_releases (s : State) :
    free_sm2_context none s = s
    ∧ ∀ c : ContextPtr,
        (free_sm2_context (some c) s).trace = s.trace ++
          ((c.obj.key.map Event.EVP_PKEY_free).toList
            ++ (c.obj.public_key.map Event.free).toList
            ++ (c.obj.private_key.map Event.free).toList
            ++ [Event.free c.addr])
        ∧ (∀ x, (free_sm2_context (some c) s).heap x =
            if x = c.addr ∨ c.obj.public_key = some x ∨ c.obj.private_key = some x then none
            else s.heap x)
        ∧ (free_sm2_context (some c) s).ptrCells = s.ptrCells
        ∧ (free_sm2_context (some c) s).sizeCells = s.sizeCells := by
  refine ⟨rfl, fun c => ?_⟩
  rcases c with ⟨addr, key, priv, pub⟩
  cases key <;> cases priv <;> cases pub <;>
    simp [free_sm2_context, State.emit, State.dropBlock] <;>
    intro x <;> split_ifs <;> simp_all <;> exfalso <;> omega

/-- Every return of `sm2_encrypt` or `sm2_decrypt` with a nonzero status comes
with a line of `log_print`. -/
theorem sm2_failure_logged (L : Lib) (context : Option ContextPtr)
    (inp : Option (List Byte)) (inLen : Nat) (out outLen : Option Nat) (s : State) :
    (∀ ret, (sm2_encrypt L context inp inLen out outLen s).1 = .ok ret → ret ≠ 0 →
      ∃ line, Event.log LOG_WARNING line
        ∈ (sm2_encrypt L context inp inLen out outLen s).2.since s)
    ∧ (∀ ret, (sm2_decrypt L context inp inLen out outLen s).1 = .ok ret → ret ≠ 0 →
      ∃ line, Event.log LOG_WARNING line
        ∈ (sm2_decrypt L context inp inLen out outLen s).2.since s) := by
  cases context with
  | none => exact ⟨fun ret h _ => (by cases h), fun ret h _ => (by cases h)⟩
  | some c =>
    rcases args_cases c inp out outLen with hbad | ⟨key, data, o, ol, hk, rfl, rfl, rfl⟩
    · rw [sm2_encrypt_invalid L c inp inLen out outLen s hbad,
        sm2_decrypt_invalid L c inp inLen out outLen s hbad]
      simp [since_append]
    · constructor
      · rcases sm2_encrypt_run L c key data inLen o ol s hk with
          ⟨_, h⟩ | ⟨ctx, i, l, hi, h⟩ | ⟨ctx, i, q, hi, hq, h⟩ | ⟨ctx, i, q, hi, hq, h⟩
          | ⟨ctx, i, q, p, r2, hi, hq, hr, h⟩ | ⟨ctx, i, q, p, r2, h1, h2, hi, hq, hr, _, _, _, _, h⟩ | hf
        · rw [h]; simp [since_append]
        · rw [h]; intro _ _ _; exact ⟨193, by simp [since_append]⟩
        · rw [h]; simp [since_append]
        · rw [h]; simp [since_append]
        · rw [h]; simp [since_append, encryptSteps]
        · rw [h]; simp
        · intro ret h; rw [hf] at h; cases h
      · rcases sm2_decrypt_run L c key data inLen o ol s hk with
          ⟨_, h⟩ | ⟨ctx, i, l, hi, h⟩ | ⟨ctx, i, q, hi, hq, h⟩ | ⟨ctx, i, q, hi, hq, h⟩
          | ⟨ctx, i, q, p, r2, hi, hq, hr, h⟩ | ⟨ctx, i, q, p, r2, h1, h2, hi, hq, hr, _, _, _, _, h⟩ | hf
        · rw [h]; simp [since_append]
        · rw [h]; intro _ _ _; exact ⟨249, by simp [since_append]⟩
        · rw [h]; simp [since_append]
        · rw [h]; simp [since_append]
        · rw [h]; simp [since_append, decryptSteps]
        · rw [h]; simp
        · intro ret h; rw [hf] at h; cases h

/-- C9 fails on the code: key generation succeeds, `malloc` of the context
returns null, `new_sm2_context` returns null, and no step of the call is a
line of `log_print`. -/
theorem new_sm2_context_silent_failure :
    (new_sm2_context noMemoryLib emptyState).1 = .ok none
    ∧ (new_sm2_context noMemoryLib emptyState).2.trace
      = [.OPENSSL_init_crypto, .EVP_PKEY_CTX_new_id (some 1), .EVP_PKEY_keygen_init 1 1,
         .EVP_PKEY_keygen 1 1 (some 7), .EVP_PKEY_CTX_free 1,
         .malloc sizeof_sm2_context none, .EVP_PKEY_free 7]
    ∧ ∀ priority line,
        Event.log priority line ∉ (new_sm2_context noMemoryLib emptyState).2.trace := by
  refine ⟨rfl, by decide, ?_⟩
  intro priority line h
  have ht : (new_sm2_context noMemoryLib emptyState).2.trace
      = [.OPENSSL_init_crypto, .EVP_PKEY_CTX_new_id (some 1), .EVP_PKEY_keygen_init 1 1,
         .EVP_PKEY_keygen 1 1 (some 7), .EVP_PKEY_CTX_free 1,
         .malloc sizeof_sm2_context none, .EVP_PKEY_free 7] := by decide
  rw [ht] at h
  simp at h

/-- The result of `sm2_encrypt` as a function of the answers of the library, step by
step. -/
theorem sm2_encrypt_steps (L : Lib) (c : ContextPtr) (key : Nat) (data : List Byte)
    (inLen o ol : Nat) (s : State) (hk : c.obj.key = some key) :
    ((L.EVP_PKEY_CTX_new s.trace key = none → (sm2_encrypt L (some c) (some data) inLen (some o) (some ol) s).1 = .ok (-1))
    ∧ ∀ ctx, L.EVP_PKEY_CTX_new s.trace key = some ctx →
      ∀ i, L.EVP_PKEY_encrypt_init (s.trace ++ [.EVP_PKEY_CTX_new key (some ctx)]) ctx = i →
      (i ≤ 0 → (sm2_encrypt L (some c) (some data) inLen (some o) (some ol) s).1 = .ok (-1))
      ∧ (0 < i →
        ∀ q, L.EVP_PKEY_encrypt (s.trace ++ [.EVP_PKEY_CTX_new key (some ctx), .EVP_PKEY_encrypt_init ctx i]) ctx none 0 data inLen = q →
        (q.ret ≤ 0 → (sm2_encrypt L (some c) (some data) inLen (some o) (some ol) s).1 = .ok (-1))
        ∧ (0 < q.ret →
          ∀ m, opensslAlloc (L.OPENSSL_malloc (s.trace ++ [.EVP_PKEY_CTX_new key (some ctx), .EVP_PKEY_encrypt_init ctx i,
              .EVP_PKEY_encrypt ctx none 0 data inLen q]) (toSize q.outlen)) (toSize q.outlen) = m →
          (m = none → (sm2_encrypt L (some c) (some data) inLen (some o) (some ol) s).1 = .ok (-1))
          ∧ ∀ p, m = some p →
            ∀ r2, L.EVP_PKEY_encrypt (s.trace ++ [.EVP_PKEY_CTX_new key (some ctx), .EVP_PKEY_encrypt_init ctx i,
                .EVP_PKEY_encrypt ctx none 0 data inLen q, .OPENSSL_malloc (toSize q.outlen) (some p)])
              ctx (some p) (toSize q.outlen) data inLen = r2 →
            (toSize q.outlen < r2.data.length → (sm2_encrypt L (some c) (some data) inLen (some o) (some ol) s).1 = .error .outOfBounds)
            ∧ (r2.data.length ≤ toSize q.outlen →
              (r2.ret ≤ 0 → (sm2_encrypt L (some c) (some data) inLen (some o) (some ol) s).1 = .ok (-1))
              ∧ (0 < r2.ret →
                (sm2_encrypt L (some c) (some data) inLen (some o) (some ol) s).1 = .ok 0
                ∧ (sm2_encrypt L (some c) (some data) inLen (some o) (some ol) s).2.ptrCells o = some p
                ∧ (sm2_encrypt L (some c) (some data) inLen (some o) (some ol) s).2.sizeCells ol = toSize r2.outlen
                ∧ (sm2_encrypt L (some c) (some data) inLen (some o) (some ol) s).2.heap p
                    = some (writeBuf (List.replicate (toSize q.outlen) none) r2.data)))))) := by
  refine ⟨fun h0 => ?_, fun ctx h0 i hi => ⟨fun hle => ?_, fun hpos q hq =>
    ⟨fun hqle => ?_, fun hqpos m hm => ⟨fun hnone => ?_, fun p hp r2 hr2 =>
      ⟨fun hover => ?_, fun hfit => ⟨fun hrle => ?_, fun hrpos => ?_⟩⟩⟩⟩⟩⟩
  · simp [sm2_encrypt, hk, h0, sm2_end, LOG, log_print, State.emit]
  · simp [sm2_encrypt, hk, h0, hi, hle, sm2_end, LOG, log_print, State.emit,
      print_openssl_errors, drainErrors_eq]
  · have hni : ¬ i ≤ 0 := by omega
    simp [sm2_encrypt, hk, h0, hi, hni, hq, hqle, sm2_end, LOG, log_print, State.emit]
  · have hni : ¬ i ≤ 0 := by omega
    have hnq : ¬ q.ret ≤ 0 := by omega
    subst hnone
    simp [sm2_encrypt, hk, h0, hi, hni, hq, hnq, hm, sm2_end, LOG, log_print, State.emit]
  · have hni : ¬ i ≤ 0 := by omega
    have hnq : ¬ q.ret ≤ 0 := by omega
    have hnf : ¬ r2.data.length ≤ _ := Nat.not_le.mpr hover
    subst hp
    simp [sm2_encrypt, hk, h0, hi, hni, hq, hnq, hm, hr2, hnf, sm2_end, LOG, log_print,
      State.emit, State.fill, State.setBlock]
  · have hni : ¬ i ≤ 0 := by omega
    have hnq : ¬ q.ret ≤ 0 := by omega
    subst hp
    simp [sm2_encrypt, hk, h0, hi, hni, hq, hnq, hm, hr2, hfit, hrle, sm2_end, LOG, log_print,
      State.emit, State.fill, State.setBlock]
  · have hni : ¬ i ≤ 0 := by omega
    have hnq : ¬ q.ret ≤ 0 := by omega
    have hnr : ¬ r2.ret ≤ 0 := by omega
    subst hp
    simp [sm2_encrypt, hk, h0, hi, hni, hq, hnq, hm, hr2, hfit, hnr, sm2_end, LOG, log_print,
      State.emit, State.fill, State.setBlock, State.storeOut, State.storeOutLen]

/-- The result of `sm2_decrypt` as a function of the answers of the library, step by
step. -/
theorem sm2_decrypt_steps (L : Lib) (c : ContextPtr) (key : Nat) (data : List Byte)
    (inLen o ol : Nat) (s : State) (hk : c.obj.key = some key) :
    ((L.EVP_PKEY_CTX_new s.trace key = none → (sm2_decrypt L (some c) (some data) inLen (some o) (some ol) s).1 = .ok (-1))
    ∧ ∀ ctx, L.EVP_PKEY_CTX_new s.trace key = some ctx →
      ∀ i, L.EVP_PKEY_decrypt_init (s.trace ++ [.EVP_PKEY_CTX_new key (some ctx)]) ctx = i →
      (i ≤ 0 → (sm2_decrypt L (some c) (some data) inLen (some o) (some ol) s).1 = .ok (-1))
      ∧ (0 < i →
        ∀ q, L.EVP_PKEY_decrypt (s.trace ++ [.EVP_PKEY_CTX_new key (some ctx), .EVP_PKEY_decrypt_init ctx i]) ctx none 0 data inLen = q →
        (q.ret ≤ 0 → (sm2_decrypt L (some c) (some data) inLen (some o) (some ol) s).1 = .ok (-1))
        ∧ (0 < q.ret →
          ∀ m, opensslAlloc (L.OPENSSL_zalloc (s.trace ++ [.EVP_PKEY_CTX_new key (some ctx), .EVP_PKEY_decrypt_init ctx i,
              .EVP_PKEY_decrypt ctx none 0 data inLen q]) (toSize (toSize q.outlen + 1))) (toSize (toSize q.outlen + 1)) = m →
          (m = none → (sm2_decrypt L (some c) (some data) inLen (some o) (some ol) s).1 = .ok (-1))
          ∧ ∀ p, m = some p →
            ∀ r2, L.EVP_PKEY_decrypt (s.trace ++ [.EVP_PKEY_CTX_new key (some ctx), .EVP_PKEY_decrypt_init ctx i,
                .EVP_PKEY_decrypt ctx none 0 data inLen q, .OPENSSL_zalloc (toSize (toSize q.outlen + 1)) (some p)])
              ctx (some p) (toSize q.outlen) data inLen = r2 →
            (toSize (toSize q.outlen + 1) < r2.data.length → (sm2_decrypt L (some c) (some data) inLen (some o) (some ol) s).1 = .error .outOfBounds)
            ∧ (r2.data.length ≤ toSize (toSize q.outlen + 1) →
              (r2.ret ≤ 0 → (sm2_decrypt L (some c) (some data) inLen (some o) (some ol) s).1 = .ok (-1))
              ∧ (0 < r2.ret →
                (sm2_decrypt L (some c) (some data) inLen (some o) (some ol) s).1 = .ok 0
                ∧ (sm2_decrypt L (some c) (some data) inLen (some o) (some ol) s).2.ptrCells o = some p
                ∧ (sm2_decrypt L (some c) (some data) inLen (some o) (some ol) s).2.sizeCells ol = toSize r2.outlen
                ∧ (sm2_decrypt L (some c) (some data) inLen (some o) (some ol) s).2.heap p
                    = some (writeBuf (List.replicate (toSize (toSize q.outlen + 1)) (some 0)) r2.data)))))) := by
  refine ⟨fun h0 => ?_, fun ctx h0 i hi => ⟨fun hle => ?_, fun hpos q hq =>
    ⟨fun hqle => ?_, fun hqpos m hm => ⟨fun hnone => ?_, fun p hp r2 hr2 =>
      ⟨fun hover => ?_, fun hfit => ⟨fun hrle => ?_, fun hrpos => ?_⟩⟩⟩⟩⟩⟩
  · simp [sm2_decrypt, hk, h0, sm2_end, LOG, log_print, State.emit]
  · simp [sm2_decrypt, hk, h0, hi, hle, sm2_end, LOG, log_print, State.emit,
      print_openssl_errors, drainErrors_eq]
  · have hni : ¬ i ≤ 0 := by omega
    simp [sm2_decrypt, hk, h0, hi, hni, hq, hqle, sm2_end, LOG, log_print, State.emit]
  · have hni : ¬ i ≤ 0 := by omega
    have hnq : ¬ q.ret ≤ 0 := by omega
    subst hnone
    simp [sm2_decrypt, hk, h0, hi, hni, hq, hnq, hm, sm2_end, LOG, log_print, State.emit]
  · have hni : ¬ i ≤ 0 := by omega
    have hnq : ¬ q.ret ≤ 0 := by omega
    have hnf : ¬ r2.data.length ≤ _ := Nat.not_le.mpr hover
    subst hp
    simp [sm2_decrypt, hk, h0, hi, hni, hq, hnq, hm, hr2, hnf, sm2_end, LOG, log_print,
      State.emit, State.fill, State.setBlock]
  · have hni : ¬ i ≤ 0 := by omega
    have hnq : ¬ q.ret ≤ 0 := by omega
    subst hp
    simp [sm2_decrypt, hk, h0, hi, hni, hq, hnq, hm, hr2, hfit, hrle, sm2_end, LOG, log_print,
      State.emit, State.fill, State.setBlock]
  · have hni : ¬ i ≤ 0 := by omega
    have hnq : ¬ q.ret ≤ 0 := by omega
    have hnr : ¬ r2.ret ≤ 0 := by omega
    subst hp
    simp [sm2_decrypt, hk, h0, hi, hni, hq, hnq, hm, hr2, hfit, hnr, sm2_end, LOG, log_print,
      State.emit, State.fill, State.setBlock, State.storeOut, State.storeOutLen]

/-- C3: with a context, a key, an input and both output pointers, `sm2_encrypt`
and `sm2_decrypt` return `0` exactly when the library answers all five steps
with a success: the operation context is created, the initialisation, the size
query and the second invocation return a positive status, the block is
granted, and the second invocation writes within the block.  Step by step: a
refused context, a failed initialisation, a failed size query, a refused block
or a failed second invocation each give `-1`; when all succeed the status is
`0`, `*out` is the block handed to the second invocation, holding what it
wrote, and `*outLen` is the length that invocation reported. -/
theorem sm2_zero_iff_every_step (L : Lib) (c : ContextPtr) (key : Nat) (data : List Byte)
    (inLen o ol : Nat) (s : State) (hk : c.obj.key = some key) :
    ((sm2_encrypt L (some c) (some data) inLen (some o) (some ol) s).1 = .ok 0 ↔
      ∃ ctx i q p r2,
        L.EVP_PKEY_CTX_new s.trace key = some ctx
        ∧ L.EVP_PKEY_encrypt_init (s.trace ++ [.EVP_PKEY_CTX_new key (some ctx)]) ctx = i ∧ 0 < i
        ∧ L.EVP_PKEY_encrypt (s.trace ++ [.EVP_PKEY_CTX_new key (some ctx), .EVP_PKEY_encrypt_init ctx i]) ctx none 0 data inLen = q ∧ 0 < q.ret
        ∧ opensslAlloc (L.OPENSSL_malloc (s.trace ++ [.EVP_PKEY_CTX_new key (some ctx), .EVP_PKEY_encrypt_init ctx i,
            .EVP_PKEY_encrypt ctx none 0 data inLen q]) (toSize q.outlen)) (toSize q.outlen) = some p
        ∧ L.EVP_PKEY_encrypt (s.trace ++ [.EVP_PKEY_CTX_new key (some ctx), .EVP_PKEY_encrypt_init ctx i,
              .EVP_PKEY_encrypt ctx none 0 data inLen q, .OPENSSL_malloc (toSize q.outlen) (some p)])
            ctx (some p) (toSize q.outlen) data inLen = r2
        ∧ r2.data.length ≤ toSize q.outlen ∧ 0 < r2.ret)
    ∧ ((L.EVP_PKEY_CTX_new s.trace key = none → (sm2_encrypt L (some c) (some data) inLen (some o) (some ol) s).1 = .ok (-1))
    ∧ ∀ ctx, L.EVP_PKEY_CTX_new s.trace key = some ctx →
      ∀ i, L.EVP_PKEY_encrypt_init (s.trace ++ [.EVP_PKEY_CTX_new key (some ctx)]) ctx = i →
      (i ≤ 0 → (sm2_encrypt L (some c) (some data) inLen (some o) (some ol) s).1 = .ok (-1))
      ∧ (0 < i →
        ∀ q, L.EVP_PKEY_encrypt (s.trace ++ [.EVP_PKEY_CTX_new key (some ctx), .EVP_PKEY_encrypt_init ctx i]) ctx none 0 data inLen = q →
        (q.ret ≤ 0 → (sm2_encrypt L (some c) (some data) inLen (some o) (some ol) s).1 = .ok (-1))
        ∧ (0 < q.ret →
          ∀ m, opensslAlloc (L.OPENSSL_malloc (s.trace ++ [.EVP_PKEY_CTX_new key (some ctx), .EVP_PKEY_encrypt_init ctx i,
              .EVP_PKEY_encrypt ctx none 0 data inLen q]) (toSize q.outlen)) (toSize q.outlen) = m →
          (m = none → (sm2_encrypt L (some c) (some data) inLen (some o) (some ol) s).1 = .ok (-1))
          ∧ ∀ p, m = some p →
            ∀ r2, L.EVP_PKEY_encrypt (s.trace ++ [.EVP_PKEY_CTX_new key (some ctx), .EVP_PKEY_encrypt_init ctx i,
                .EVP_PKEY_encrypt ctx none 0 data inLen q, .OPENSSL_malloc (toSize q.outlen) (some p)])
              ctx (some p) (toSize q.outlen) data inLen = r2 →
            (toSize q.outlen < r2.data.length → (sm2_encrypt L (some c) (some data) inLen (some o) (some ol) s).1 = .error .outOfBounds)
            ∧ (r2.data.length ≤ toSize q.outlen →
              (r2.ret ≤ 0 → (sm2_encrypt L (some c) (some data) inLen (some o) (some ol) s).1 = .ok (-1))
              ∧ (0 < r2.ret →
                (sm2_encrypt L (some c) (some data) inLen (some o) (some ol) s).1 = .ok 0
                ∧ (sm2_encrypt L (some c) (some data) inLen (some o) (some ol) s).2.ptrCells o = some p
                ∧ (sm2_encrypt L (some c) (some data) inLen (some o) (some ol) s).2.sizeCells ol = toSize r2.outlen
                ∧ (sm2_encrypt L (some c) (some data) inLen (some o) (some ol) s).2.heap p
                    = some (writeBuf (List.replicate (toSize q.outlen) none) r2.data))))))
    ∧ ((sm2_decrypt L (some c) (some data) inLen (some o) (some ol) s).1 = .ok 0 ↔
      ∃ ctx i q p r2,
        L.EVP_PKEY_CTX_new s.trace key = some ctx
        ∧ L.EVP_PKEY_decrypt_init (s.trace ++ [.EVP_PKEY_CTX_new key (some ctx)]) ctx = i ∧ 0 < i
        ∧ L.EVP_PKEY_decrypt (s.trace ++ [.EVP_PKEY_CTX_new key (some ctx), .EVP_PKEY_decrypt_init ctx i]) ctx none 0 data inLen = q ∧ 0 < q.ret
        ∧ opensslAlloc (L.OPENSSL_zalloc (s.trace ++ [.EVP_PKEY_CTX_new key (some ctx), .EVP_PKEY_decrypt_init ctx i,
            .EVP_PKEY_decrypt ctx none 0 data inLen q]) (toSize (toSize q.outlen + 1))) (toSize (toSize q.outlen + 1)) = some p
        ∧ L.EVP_PKEY_decrypt (s.trace ++ [.EVP_PKEY_CTX_new key (some ctx), .EVP_PKEY_decrypt_init ctx i,
              .EVP_PKEY_decrypt ctx none 0 data inLen q, .OPENSSL_zalloc (toSize (toSize q.outlen + 1)) (some p)])
            ctx (some p) (toSize q.outlen) data inLen = r2
        ∧ r2.data.length ≤ toSize (toSize q.outlen + 1) ∧ 0 < r2.ret)
    ∧ ((L.EVP_PKEY_CTX_new s.trace key = none → (sm2_decrypt L (some c) (some data) inLen (some o) (some ol) s).1 = .ok (-1))
    ∧ ∀ ctx, L.EVP_PKEY_CTX_new s.trace key = some ctx →
      ∀ i, L.EVP_PKEY_decrypt_init (s.trace ++ [.EVP_PKEY_CTX_new key (some ctx)]) ctx = i →
      (i ≤ 0 → (sm2_decrypt L (some c) (some data) inLen (some o) (some ol) s).1 = .ok (-1))
      ∧ (0 < i →
        ∀ q, L.EVP_PKEY_decrypt (s.trace ++ [.EVP_PKEY_CTX_new key (some ctx), .EVP_PKEY_decrypt_init ctx i]) ctx none 0 data inLen = q →
        (q.ret ≤ 0 → (sm2_decrypt L (some c) (some data) inLen (some o) (some ol) s).1 = .ok (-1))
        ∧ (0 < q.ret →
          ∀ m, opensslAlloc (L.OPENSSL_zalloc (s.trace ++ [.EVP_PKEY_CTX_new key (some ctx), .EVP_PKEY_decrypt_init ctx i,
              .EVP_PKEY_decrypt ctx none 0 data inLen q]) (toSize (toSize q.outlen + 1))) (toSize (toSize q.outlen + 1)) = m →
          (m = none → (sm2_decrypt L (some c) (some data) inLen (some o) (some ol) s).1 = .ok (-1))
          ∧ ∀ p, m = some p →
            ∀ r2, L.EVP_PKEY_decrypt (s.trace ++ [.EVP_PKEY_CTX_new key (some ctx), .EVP_PKEY_decrypt_init ctx i,
                .EVP_PKEY_decrypt ctx none 0 data inLen q, .OPENSSL_zalloc (toSize (toSize q.outlen + 1)) (some p)])
              ctx (some p) (toSize q.outlen) data inLen = r2 →
            (toSize (toSize q.outlen + 1) < r2.data.length → (sm2_decrypt L (some c) (some data) inLen (some o) (some ol) s).1 = .error .outOfBounds)
            ∧ (r2.data.length ≤ toSize (toSize q.outlen + 1) →
              (r2.ret ≤ 0 → (sm2_decrypt L (some c) (some data) inLen (some o) (some ol) s).1 = .ok (-1))
              ∧ (0 < r2.ret →
                (sm2_decrypt L (some c) (some data) inLen (some o) (some ol) s).1 = .ok 0
                ∧ (sm2_decrypt L (some c) (some data) inLen (some o) (some ol) s).2.ptrCells o = some p
                ∧ (sm2_decrypt L (some c) (some data) inLen (some o) (some ol) s).2.sizeCells ol = toSize r2.outlen
                ∧ (sm2_decrypt L (some c) (some data) inLen (some o) (some ol) s).2.heap p
                    = some (writeBuf (List.replicate (toSize (toSize q.outlen + 1)) (some 0)) r2.data)))))) := by
  refine ⟨?_, sm2_encrypt_steps L c key data inLen o ol s hk, ?_,
    sm2_decrypt_steps L c key data inLen o ol s hk⟩
  · have T := sm2_encrypt_steps L c key data inLen o ol s hk
    constructor
    · intro h
      cases hctx : L.EVP_PKEY_CTX_new s.trace key with
      | none => rw [T.1 hctx] at h; cases h
      | some ctx =>
        obtain ⟨i, hi⟩ : ∃ i, L.EVP_PKEY_encrypt_init (s.trace ++ [.EVP_PKEY_CTX_new key (some ctx)]) ctx = i := ⟨_, rfl⟩
        have T1 := T.2 ctx hctx i hi
        rcases le_or_lt i 0 with hle | hipos
        · rw [T1.1 hle] at h; cases h
        obtain ⟨q, hq⟩ : ∃ q, L.EVP_PKEY_encrypt (s.trace ++ [.EVP_PKEY_CTX_new key (some ctx), .EVP_PKEY_encrypt_init ctx i]) ctx none 0 data inLen = q :=
          ⟨_, rfl⟩
        have T2 := T1.2 hipos q hq
        rcases le_or_lt q.ret 0 with hqle | hqpos
        · rw [T2.1 hqle] at h; cases h
        have T3 := T2.2 hqpos _ rfl
        cases hm : opensslAlloc (L.OPENSSL_malloc (s.trace ++ [.EVP_PKEY_CTX_new key (some ctx), .EVP_PKEY_encrypt_init ctx i,
            .EVP_PKEY_encrypt ctx none 0 data inLen q]) (toSize q.outlen)) (toSize q.outlen) with
        | none => rw [T3.1 hm] at h; cases h
        | some p =>
          obtain ⟨r2, hr2⟩ : ∃ r2, L.EVP_PKEY_encrypt (s.trace ++ [.EVP_PKEY_CTX_new key (some ctx), .EVP_PKEY_encrypt_init ctx i,
              .EVP_PKEY_encrypt ctx none 0 data inLen q, .OPENSSL_malloc (toSize q.outlen) (some p)])
              ctx (some p) (toSize q.outlen) data inLen = r2 := ⟨_, rfl⟩
          have T4 := T3.2 p hm r2 hr2
          rcases le_or_lt r2.data.length (toSize q.outlen) with hfit | hover
          · rcases le_or_lt r2.ret 0 with hrle | hrpos
            · rw [(T4.2 hfit).1 hrle] at h; cases h
            · exact ⟨ctx, i, q, p, r2, rfl, hi, hipos, hq, hqpos, hm, hr2, hfit, hrpos⟩
          · rw [T4.1 hover] at h; cases h
    · rintro ⟨ctx, i, q, p, r2, hctx, hi, hipos, hq, hqpos, hm, hr2, hfit, hrpos⟩
      exact (((((T.2 ctx hctx i hi).2 hipos q hq).2 hqpos _ hm).2 p rfl r2 hr2).2 hfit).2
        hrpos |>.1
  · have T := sm2_decrypt_steps L c key data inLen o ol s hk
    constructor
    · intro h
      cases hctx : L.EVP_PKEY_CTX_new s.trace key with
      | none => rw [T.1 hctx] at h; cases h
      | some ctx =>
        obtain ⟨i, hi⟩ : ∃ i, L.EVP_PKEY_decrypt_init (s.trace ++ [.EVP_PKEY_CTX_new key (some ctx)]) ctx = i := ⟨_, rfl⟩
        have T1 := T.2 ctx hctx i hi
        rcases le_or_lt i 0 with hle | hipos
        · rw [T1.1 hle] at h; cases h
        obtain ⟨q, hq⟩ : ∃ q, L.EVP_PKEY_decrypt (s.trace ++ [.EVP_PKEY_CTX_new key (some ctx), .EVP_PKEY_decrypt_init ctx i]) ctx none 0 data inLen = q :=
          ⟨_, rfl⟩
        have T2 := T1.2 hipos q hq
        rcases le_or_lt q.ret 0 with hqle | hqpos
        · rw [T2.1 hqle] at h; cases h
        have T3 := T2.2 hqpos _ rfl
        cases hm : opensslAlloc (L.OPENSSL_zalloc (s.trace ++ [.EVP_PKEY_CTX_new key (some ctx), .EVP_PKEY_decrypt_init ctx i,
            .EVP_PKEY_decrypt ctx none 0 data inLen q]) (toSize (toSize q.outlen + 1))) (toSize (toSize q.outlen + 1)) with
        | none => rw [T3.1 hm] at h; cases h
        | some p =>
          obtain ⟨r2, hr2⟩ : ∃ r2, L.EVP_PKEY_decrypt (s.trace ++ [.EVP_PKEY_CTX_new key (some ctx), .EVP_PKEY_decrypt_init ctx i,
              .EVP_PKEY_decrypt ctx none 0 data inLen q, .OPENSSL_zalloc (toSize (toSize q.outlen + 1)) (some p)])
              ctx (some p) (toSize q.outlen) data inLen = r2 := ⟨_, rfl⟩
          have T4 := T3.2 p hm r2 hr2
          rcases le_or_lt r2.data.length (toSize (toSize q.outlen + 1)) with hfit | hover
          · rcases le_or_lt r2.ret 0 with hrle | hrpos
            · rw [(T4.2 hfit).1 hrle] at h; cases h
            · exact ⟨ctx, i, q, p, r2, rfl, hi, hipos, hq, hqpos, hm, hr2, hfit, hrpos⟩
          · rw [T4.1 hover] at h; cases h
    · rintro ⟨ctx, i, q, p, r2, hctx, hi, hipos, hq, hqpos, hm, hr2, hfit, hrpos⟩
      exact (((((T.2 ctx hctx i hi).2 hipos q hq).2 hqpos _ hm).2 p rfl r2 hr2).2 hfit).2
        hrpos |>.1

/-- Witness for C3: with the stand-in library every step succeeds and
`sm2_encrypt` returns `0`; with an `OPENSSL_zalloc` that is out of memory
`sm2_decrypt` returns `-1`. -/
theorem sm2_zero_iff_every_step_witness :
    demoContext.obj.key = some 7
    ∧ (sm2_encrypt demoLib (some demoContext) (some [104, 105]) 2 (some 1) (some 2)
        emptyState).1 = .ok 0
    ∧ (sm2_decrypt noZallocLib (some demoContext) (some [7, 104, 105]) 3 (some 1) (some 2)
        emptyState).1 = .ok (-1) :=
  ⟨rfl,
   (sm2_zero_iff_every_step demoLib demoContext 7 [104, 105] 2 1 2 emptyState rfl).1.2
     ⟨2, 1, ⟨1, 5, []⟩, 100, ⟨1, 3, [7, 104, 105]⟩, rfl, rfl, by decide, rfl, by decide, rfl,
       rfl, by decide, by decide⟩,
   ((((sm2_zero_iff_every_step noZallocLib demoContext 7 [7, 104, 105] 3 1 2 emptyState
      rfl).2.2.2.2 2 rfl 1 rfl).2 (by decide) ⟨1, 3, []⟩ rfl).2 (by decide) none rfl).1 rfl⟩

/-- Writing bytes that fit into a block keeps its size. -/
theorem writeBuf_length (buf : List (Option Byte)) (d : List Byte) (h : d.length ≤ buf.length) :
    (writeBuf buf d).length = buf.length := by
  simp only [writeBuf, List.length_append, List.length_map, List.length_drop]
  omega

/-- In a zeroed block, a byte past the written ones is still `0`. -/
theorem writeBuf_zero_at (n k : Nat) (d : List Byte) (hd : d.length ≤ k) (hk : k < n) :
    (writeBuf (List.replicate n (some 0)) d)[k]? = some (some 0) := by
  simp only [writeBuf, List.drop_replicate]
  rw [List.getElem?_append_right (by simpa using hd)]
  simp only [List.length_map]
  rw [List.getElem?_replicate]
  have : k - d.length < n - d.length := by omega
  simp [this]

/-- The bytes written into a block are found at its start. -/
theorem writeBuf_take (buf : List (Option Byte)) (d : List Byte) (k : Nat)
    (h : k ≤ d.length) : (writeBuf buf d).take k = (d.take k).map some := by
  simp only [writeBuf]
  rw [List.take_append_of_le_length (by simpa using h), List.map_take]

/-- Bytes that were written are read back. -/
theorem readBytes_map_some (l : List Byte) : readBytes (l.map some) = some l := by
  induction l with
  | nil => rfl
  | cons b rest ih => simp [readBytes, ih]

/-- Reading across a byte that was never written yields nothing. -/
theorem readBytes_unwritten (l : List Byte) (rest : List (Option Byte)) :
    readBytes (l.map some ++ none :: rest) = none := by
  induction l with
  | nil => rfl
  | cons b t ih => simp [readBytes, ih]

/-- A granted request was not for zero bytes, and the address is the allocator's. -/
theorem opensslAlloc_some (a : Option Nat) (num p : Nat) (h : opensslAlloc a num = some p) :
    num ≠ 0 ∧ a = some p := by
  unfold opensslAlloc at h
  by_cases h0 : num = 0
  · simp [h0] at h
  · simpa [h0] using h

/-- When `n + 1` is not `0` in `size_t`, it is `n + 1`. -/
theorem toSize_succ (x : Nat) (h : toSize (toSize x + 1) ≠ 0) :
    toSize (toSize x + 1) = toSize x + 1 := by
  unfold toSize at *
  have hx : x % SIZE_MOD < SIZE_MOD := Nat.mod_lt _ (by decide)
  by_cases he : x % SIZE_MOD + 1 = SIZE_MOD
  · rw [he, Nat.mod_self] at h
    exact absurd rfl h
  · exact Nat.mod_eq_of_lt (by omega)

/-- C10: two-phase sizing.  With `n` the size the size query reports (read as a
`size_t`), `sm2_encrypt` asks `OPENSSL_malloc` for `n` bytes and `sm2_decrypt`
asks `OPENSSL_zalloc` for `n + 1` bytes computed in `size_t`.  When the request
is refused the call returns `-1` and the second invocation is not made.  When
it is granted, `n + 1` did not wrap, and the second invocation is given the
granted block and the capacity `n`; when what it writes fits the block, the
call returns `-1` (block freed) or `0`, and on `0` the block has `n`
(respectively `n + 1`) bytes and, for `sm2_decrypt`, every byte from the end of
what the library wrote up to index `n` is `0`. -/
theorem two_phase_sizing (L : Lib) (c : ContextPtr) (key : Nat) (data : List Byte)
    (inLen o ol : Nat) (s : State) (hk : c.obj.key = some key) :
    (∀ ctx, L.EVP_PKEY_CTX_new s.trace key = some ctx →
      ∀ i, L.EVP_PKEY_encrypt_init (s.trace ++ [.EVP_PKEY_CTX_new key (some ctx)]) ctx = i → 0 < i →
      ∀ q, L.EVP_PKEY_encrypt (s.trace ++ [.EVP_PKEY_CTX_new key (some ctx), .EVP_PKEY_encrypt_init ctx i]) ctx none 0 data inLen = q → 0 < q.ret →
      ∀ m, opensslAlloc (L.OPENSSL_malloc (s.trace ++ [.EVP_PKEY_CTX_new key (some ctx), .EVP_PKEY_encrypt_init ctx i,
          .EVP_PKEY_encrypt ctx none 0 data inLen q]) (toSize q.outlen)) (toSize q.outlen) = m →
        (m = none →
          (sm2_encrypt L (some c) (some data) inLen (some o) (some ol) s).1 = .ok (-1)
          ∧ (sm2_encrypt L (some c) (some data) inLen (some o) (some ol) s).2.since s
            = [.EVP_PKEY_CTX_new key (some ctx), .EVP_PKEY_encrypt_init ctx i, .EVP_PKEY_encrypt ctx none 0 data inLen q,
               .OPENSSL_malloc (toSize q.outlen) none, .log LOG_WARNING 206, .EVP_PKEY_CTX_free ctx])
        ∧ ∀ p, m = some p →
          ∀ r2, L.EVP_PKEY_encrypt (s.trace ++ [.EVP_PKEY_CTX_new key (some ctx), .EVP_PKEY_encrypt_init ctx i,
              .EVP_PKEY_encrypt ctx none 0 data inLen q, .OPENSSL_malloc (toSize q.outlen) (some p)])
            ctx (some p) (toSize q.outlen) data inLen = r2 →
          r2.data.length ≤ toSize q.outlen →
            (r2.ret ≤ 0 →
              (sm2_encrypt L (some c) (some data) inLen (some o) (some ol) s).1 = .ok (-1)
              ∧ (sm2_encrypt L (some c) (some data) inLen (some o) (some ol) s).2.since s
                = encryptSteps key data inLen ctx i q p r2
                  ++ [.log LOG_WARNING 211, .EVP_PKEY_CTX_free ctx, .OPENSSL_free p])
            ∧ (0 < r2.ret →
              (sm2_encrypt L (some c) (some data) inLen (some o) (some ol) s).1 = .ok 0
              ∧ (sm2_encrypt L (some c) (some data) inLen (some o) (some ol) s).2.since s
                = encryptSteps key data inLen ctx i q p r2
                  ++ [.storeOut o p, .storeOutLen ol (toSize r2.outlen), .EVP_PKEY_CTX_free ctx]
              ∧ (sm2_encrypt L (some c) (some data) inLen (some o) (some ol) s).2.ptrCells o = some p
              ∧ (sm2_encrypt L (some c) (some data) inLen (some o) (some ol) s).2.heap p
                  = some (writeBuf (List.replicate (toSize q.outlen) none) r2.data)
              ∧ (writeBuf (List.replicate (toSize q.outlen) none) r2.data).length
                  = toSize q.outlen))
    ∧ (∀ ctx, L.EVP_PKEY_CTX_new s.trace key = some ctx →
      ∀ i, L.EVP_PKEY_decrypt_init (s.trace ++ [.EVP_PKEY_CTX_new key (some ctx)]) ctx = i → 0 < i →
      ∀ q, L.EVP_PKEY_decrypt (s.trace ++ [.EVP_PKEY_CTX_new key (some ctx), .EVP_PKEY_decrypt_init ctx i]) ctx none 0 data inLen = q → 0 < q.ret →
      ∀ m, opensslAlloc (L.OPENSSL_zalloc (s.trace ++ [.EVP_PKEY_CTX_new key (some ctx), .EVP_PKEY_decrypt_init ctx i,
          .EVP_PKEY_decrypt ctx none 0 data inLen q]) (toSize (toSize q.outlen + 1))) (toSize (toSize q.outlen + 1)) = m →
        (m = none →
          (sm2_decrypt L (some c) (some data) inLen (some o) (some ol) s).1 = .ok (-1)
          ∧ (sm2_decrypt L (some c) (some data) inLen (some o) (some ol) s).2.since s
            = [.EVP_PKEY_CTX_new key (some ctx), .EVP_PKEY_decrypt_init ctx i, .EVP_PKEY_decrypt ctx none 0 data inLen q,
               .OPENSSL_zalloc (toSize (toSize q.outlen + 1)) none, .log LOG_WARNING 261, .EVP_PKEY_CTX_free ctx])
        ∧ ∀ p, m = some p →
          toSize (toSize q.outlen + 1) = toSize q.outlen + 1
          ∧ ∀ r2, L.EVP_PKEY_decrypt (s.trace ++ [.EVP_PKEY_CTX_new key (some ctx), .EVP_PKEY_decrypt_init ctx i,
              .EVP_PKEY_decrypt ctx none 0 data inLen q, .OPENSSL_zalloc (toSize (toSize q.outlen + 1)) (some p)])
            ctx (some p) (toSize q.outlen) data inLen = r2 →
          r2.data.length ≤ toSize q.outlen + 1 →
            (r2.ret ≤ 0 →
              (sm2_decrypt L (some c) (some data) inLen (some o) (some ol) s).1 = .ok (-1)
              ∧ (sm2_decrypt L (some c) (some data) inLen (some o) (some ol) s).2.since s
                = decryptSteps key data inLen ctx i q p r2
                  ++ [.log LOG_WARNING 266, .EVP_PKEY_CTX_free ctx, .OPENSSL_free p])
            ∧ (0 < r2.ret →
              (sm2_decrypt L (some c) (some data) inLen (some o) (some ol) s).1 = .ok 0
              ∧ (sm2_decrypt L (some c) (some data) inLen (some o) (some ol) s).2.since s
                = decryptSteps key data inLen ctx i q p r2
                  ++ [.storeOut o p, .storeOutLen ol (toSize r2.outlen), .EVP_PKEY_CTX_free ctx]
              ∧ (sm2_decrypt L (some c) (some data) inLen (some o) (some ol) s).2.ptrCells o = some p
              ∧ (sm2_decrypt L (some c) (some data) inLen (some o) (some ol) s).2.heap p
                  = some (writeBuf (List.replicate (toSize q.outlen + 1) (some 0)) r2.data)
              ∧ (writeBuf (List.replicate (toSize q.outlen + 1) (some 0)) r2.data).length
                  = toSize q.outlen + 1
              ∧ ∀ k, r2.data.length ≤ k → k ≤ toSize q.outlen →
                  (writeBuf (List.replicate (toSize q.outlen + 1) (some 0)) r2.data)[k]?
                    = some (some 0))) := by
  refine ⟨?_, ?_⟩
  · intro ctx h0 i hi hipos q hq hqpos m hm
    have hni : ¬ i ≤ 0 := by omega
    have hnq : ¬ q.ret ≤ 0 := by omega
    refine ⟨fun hnone => ?_, fun p hp => ?_⟩
    · subst hnone
      simp [sm2_encrypt, hk, h0, hi, hni, hq, hnq, hm, sm2_end, LOG, log_print, State.emit,
        State.since]
    subst hp
    intro r2 hr2 hfit
    have hfit2 := hfit
    refine ⟨fun hrle => ?_, fun hrpos => ?_⟩
    · simp [sm2_encrypt, hk, h0, hi, hni, hq, hnq, hm, hr2, hfit2, hrle, sm2_end, LOG, log_print,
        State.emit, State.fill, State.setBlock, State.since, encryptSteps, State.dropBlock]
    · have hnr : ¬ r2.ret ≤ 0 := by omega
      refine ⟨?_, ?_, ?_, ?_, (writeBuf_length _ _ (by simpa using hfit)).trans (by simp)⟩
      all_goals
        simp [sm2_encrypt, hk, h0, hi, hni, hq, hnq, hm, hr2, hfit2, hnr, sm2_end, LOG,
          log_print, State.emit, State.fill, State.setBlock, State.since, encryptSteps,
          State.storeOut, State.storeOutLen]
  · intro ctx h0 i hi hipos q hq hqpos m hm
    have hni : ¬ i ≤ 0 := by omega
    have hnq : ¬ q.ret ≤ 0 := by omega
    refine ⟨fun hnone => ?_, fun p hp => ?_⟩
    · subst hnone
      simp [sm2_decrypt, hk, h0, hi, hni, hq, hnq, hm, sm2_end, LOG, log_print, State.emit,
        State.since]
    subst hp
    have hsz := toSize_succ q.outlen (opensslAlloc_some _ _ _ hm).1
    refine ⟨hsz, fun r2 hr2 hfit => ?_⟩
    rw [hsz] at hm hr2
    have hfit2 := hfit
    refine ⟨fun hrle => ?_, fun hrpos => ?_⟩
    · simp [sm2_decrypt, hk, h0, hi, hni, hq, hnq, hm, hr2, hfit2, hrle, sm2_end, LOG, log_print,
        State.emit, State.fill, State.setBlock, State.since, decryptSteps, State.dropBlock, hsz]
    · have hnr : ¬ r2.ret ≤ 0 := by omega
      refine ⟨?_, ?_, ?_, ?_, (writeBuf_length _ _ (by simpa using hfit)).trans (by simp),
        fun k hk1 hk2 => writeBuf_zero_at _ _ _ hk1 (by omega)⟩
      all_goals
        simp [sm2_decrypt, hk, h0, hi, hni, hq, hnq, hm, hr2, hfit2, hnr, sm2_end, LOG,
          log_print, State.emit, State.fill, State.setBlock, State.since, decryptSteps,
          State.storeOut, State.storeOutLen, hsz]

/-- Witness for C10: with the stand-in library the size query of `sm2_decrypt`
on a three-byte ciphertext reports `3`, four zeroed bytes are granted, the
second invocation writes three of them, and the byte at index `3` is `0`. -/
theorem two_phase_sizing_witness :
    demoContext.obj.key = some 7
    ∧ (sm2_decrypt demoLib (some demoContext) (some [7, 104, 105]) 3 (some 1) (some 2)
        emptyState).1 = .ok 0
    ∧ (sm2_decrypt demoLib (some demoContext) (some [7, 104, 105]) 3 (some 1) (some 2)
        emptyState).2.heap 200 = some [some 104, some 105, some 255, some 0]
    ∧ ([some 104, some 105, some 255, some 0] : List (Option Byte))[3]? = some (some 0) :=
  ⟨rfl,
   (((((two_phase_sizing demoLib demoContext 7 [7, 104, 105] 3 1 2 emptyState rfl).2 2 rfl 1 rfl
      (by decide) ⟨1, 3, []⟩ rfl (by decide) (some 200) rfl).2 200 rfl).2
      ⟨1, 2, [104, 105, 255]⟩ rfl (by decide)).2 (by decide)).1,
   (((((two_phase_sizing demoLib demoContext 7 [7, 104, 105] 3 1 2 emptyState rfl).2 2 rfl 1 rfl
      (by decide) ⟨1, 3, []⟩ rfl (by decide) (some 200) rfl).2 200 rfl).2
      ⟨1, 2, [104, 105, 255]⟩ rfl (by decide)).2 (by decide)).2.2.2.1,
   (((((two_phase_sizing demoLib demoContext 7 [7, 104, 105] 3 1 2 emptyState rfl).2 2 rfl 1 rfl
      (by decide) ⟨1, 3, []⟩ rfl (by decide) (some 200) rfl).2 200 rfl).2
      ⟨1, 2, [104, 105, 255]⟩ rfl (by decide)).2 (by decide)).2.2.2.2.2 3 (by decide)
      (by decide)⟩

/-- C10, the final sentence refuted: the size query of `sm2_decrypt` reports
`n = 3`, four zeroed bytes are granted, and the second invocation, told that
three bytes are available, writes the two plaintext bytes followed by one
byte `255` and reports the length `m = 2`.  The call returns `0` with
`*outLen = 2`, and the byte at index `2` of the output block is `255`. -/
theorem two_phase_sizing_padding :
    (sm2_decrypt demoLib (some demoContext) (some [7, 104, 105]) 3 (some 1) (some 2)
        emptyState).1 = .ok 0
    ∧ (sm2_decrypt demoLib (some demoContext) (some [7, 104, 105]) 3 (some 1) (some 2)
        emptyState).2.since emptyState
        = [.EVP_PKEY_CTX_new 7 (some 2), .EVP_PKEY_decrypt_init 2 1,
           .EVP_PKEY_decrypt 2 none 0 [7, 104, 105] 3 ⟨1, 3, []⟩,
           .OPENSSL_zalloc 4 (some 200),
           .EVP_PKEY_decrypt 2 (some 200) 3 [7, 104, 105] 3 ⟨1, 2, [104, 105, 255]⟩,
           .storeOut 1 200, .storeOutLen 2 2, .EVP_PKEY_CTX_free 2]
    ∧ (sm2_decrypt demoLib (some demoContext) (some [7, 104, 105]) 3 (some 1) (some 2)
        emptyState).2.sizeCells 2 = 2
    ∧ (2 : Nat) ≤ 3
    ∧ (sm2_decrypt demoLib (some demoContext) (some [7, 104, 105]) 3 (some 1) (some 2)
        emptyState).2.ptrCells 1 = some 200
    ∧ (sm2_decrypt demoLib (some demoContext) (some [7, 104, 105]) 3 (some 1) (some 2)
        emptyState).2.heap 200 = some [some 104, some 105, some 255, some 0]
    ∧ ([some 104, some 105, some 255, some 0] : List (Option Byte))[2]? = some (some 255) :=
  ⟨rfl, rfl, rfl, by decide, rfl, rfl, rfl⟩

/-- A block of `|d| + 1` bytes filled with `d` and closed with `0`. -/
theorem writeBuf_text (d : List Byte) :
    (writeBuf (List.replicate (d.length + 1) none) d).set d.length (some 0)
      = d.map some ++ [some 0] := by
  have h1 : (List.replicate (d.length + 1) (none : Option Byte)).drop d.length = [none] := by
    simp
  simp only [writeBuf, h1]
  have h3 : d.length = (d.map some).length := by simp
  conv_lhs => rw [h3]
  simp

/-- C7: the PEM exporters, step by step in the answers of the library.  The
result is absent when `BIO_new` gives no BIO, when the PEM serializer returns
a status that is not positive, when the pending length is zero, when `malloc`
refuses the text, and when `BIO_read` returns a value that is not positive.
Otherwise, with `len` the pending length and `len + 1` representable, the
result is the `malloc` block of `len + 1` bytes, holding what the read
delivered and `0` at index `len`; when the read delivers the `len` bytes the
serializer wrote, the block is those bytes followed by `0`. -/
theorem pem_export_text (L : Lib) (key : Nat) (s : State) :
    ((L.BIO_new s.trace = none → (get_public_key L key s).1 = .ok none)
    ∧ ∀ bio, L.BIO_new s.trace = some bio →
      ∀ w, L.PEM_write_bio_PUBKEY (s.trace ++ [.BIO_new (some bio)]) bio key = w →
      (w.ret ≤ 0 → (get_public_key L key s).1 = .ok none)
      ∧ (0 < w.ret →
        ∀ pend, L.BIO_pending (s.trace ++ [.BIO_new (some bio), .PEM_write_bio_PUBKEY bio key w]) bio = pend →
        (intToSize pend = 0 → (get_public_key L key s).1 = .ok none)
        ∧ (intToSize pend ≠ 0 →
          ∀ m, L.malloc (s.trace ++ [.BIO_new (some bio), .PEM_write_bio_PUBKEY bio key w, .BIO_pending bio pend])
              (toSize (intToSize pend + 1)) = m →
          (m = none → (get_public_key L key s).1 = .ok none)
          ∧ ∀ p, m = some p →
            ∀ rd, L.BIO_read (s.trace ++ [.BIO_new (some bio), .PEM_write_bio_PUBKEY bio key w, .BIO_pending bio pend,
                .malloc (toSize (intToSize pend + 1)) (some p)]) bio p (intToSize pend) = rd →
            (rd.ret ≤ 0 → (get_public_key L key s).1 = .ok none)
            ∧ (0 < rd.ret → intToSize pend + 1 < SIZE_MOD →
              (rd.data.take rd.ret.toNat).length ≤ intToSize pend + 1 →
              (get_public_key L key s).1 = .ok (some p)
              ∧ (get_public_key L key s).2.heap p
                  = some ((writeBuf (List.replicate (intToSize pend + 1) none)
                      (rd.data.take rd.ret.toNat)).set (intToSize pend) (some 0))
              ∧ (w.written.length = intToSize pend →
                  rd.data.take rd.ret.toNat = w.written →
                  (get_public_key L key s).2.heap p = some (w.written.map some ++ [some 0]))))))
    ∧ ((L.BIO_new s.trace = none → (get_private_key L key s).1 = .ok none)
    ∧ ∀ bio, L.BIO_new s.trace = some bio →
      ∀ w, L.PEM_write_bio_PrivateKey (s.trace ++ [.BIO_new (some bio), .ERR_clear_error]) bio key = w →
      (w.ret ≤ 0 → (get_private_key L key s).1 = .ok none)
      ∧ (0 < w.ret →
        ∀ pend, L.BIO_pending (s.trace ++ [.BIO_new (some bio), .ERR_clear_error, .PEM_write_bio_PrivateKey bio key w]) bio = pend →
        (intToSize pend = 0 → (get_private_key L key s).1 = .ok none)
        ∧ (intToSize pend ≠ 0 →
          ∀ m, L.malloc (s.trace ++ [.BIO_new (some bio), .ERR_clear_error, .PEM_write_bio_PrivateKey bio key w, .BIO_pending bio pend])
              (toSize (intToSize pend + 1)) = m →
          (m = none → (get_private_key L key s).1 = .ok none)
          ∧ ∀ p, m = some p →
            ∀ rd, L.BIO_read (s.trace ++ [.BIO_new (some bio), .ERR_clear_error, .PEM_write_bio_PrivateKey bio key w, .BIO_pending bio pend,
                .malloc (toSize (intToSize pend + 1)) (some p)]) bio p (intToSize pend) = rd →
            (rd.ret ≤ 0 → (get_private_key L key s).1 = .ok none)
            ∧ (0 < rd.ret → intToSize pend + 1 < SIZE_MOD →
              (rd.data.take rd.ret.toNat).length ≤ intToSize pend + 1 →
              (get_private_key L key s).1 = .ok (some p)
              ∧ (get_private_key L key s).2.heap p
                  = some ((writeBuf (List.replicate (intToSize pend + 1) none)
                      (rd.data.take rd.ret.toNat)).set (intToSize pend) (some 0))
              ∧ (w.written.length = intToSize pend →
                  rd.data.take rd.ret.toNat = w.written →
                  (get_private_key L key s).2.heap p = some (w.written.map some ++ [some 0])))))) := by
  refine ⟨?_, ?_⟩
  · refine ⟨fun h0 => ?_, fun bio h0 w hw => ⟨fun hwle => ?_, fun hwpos pend hpend =>
      ⟨fun hz => ?_, fun hnz m hm => ⟨fun hnone => ?_, fun p hp rd hrd =>
        ⟨fun hrle => ?_, fun hrpos hlt hfit => ?_⟩⟩⟩⟩⟩
    · simp [get_public_key, h0, key_end, LOG, log_print, State.emit]
    · simp [get_public_key, h0, hw, hwle, key_end, LOG, log_print, State.emit,
        print_openssl_errors, drainErrors_eq]
    · have hnw : ¬ w.ret ≤ 0 := by omega
      simp [get_public_key, h0, hw, hnw, hpend, hz, key_end, LOG, log_print, State.emit]
    · have hnw : ¬ w.ret ≤ 0 := by omega
      subst hnone
      simp [get_public_key, h0, hw, hnw, hpend, hnz, hm, key_end, LOG, log_print, State.emit]
    · have hnw : ¬ w.ret ≤ 0 := by omega
      have ht : rd.ret.toNat = 0 := by omega
      subst hp
      simp [get_public_key, h0, hw, hnw, hpend, hnz, hm, hrd, hrle, ht, key_end, LOG, log_print,
        State.emit, State.fill, State.setBlock]
    · have hnw : ¬ w.ret ≤ 0 := by omega
      have hnr : ¬ rd.ret ≤ 0 := by omega
      have hsz : toSize (intToSize pend + 1) = intToSize pend + 1 := Nat.mod_eq_of_lt hlt
      subst hp
      rw [hsz] at hm hrd
      have hfit2 := hfit
      simp only [List.length_take] at hfit2
      have hheap : (get_public_key L key s).2.heap p
          = some ((writeBuf (List.replicate (intToSize pend + 1) none)
              (rd.data.take rd.ret.toNat)).set (intToSize pend) (some 0)) := by
        simp [get_public_key, h0, hw, hnw, hpend, hnz, hm, hrd, hnr, hsz, hfit2, key_end, State.emit,
          State.fill, State.setBlock, State.setByte]
      refine ⟨?_, hheap, fun hlen hdata => ?_⟩
      · simp [get_public_key, h0, hw, hnw, hpend, hnz, hm, hrd, hnr, hsz, hfit2, key_end, State.emit,
          State.fill, State.setBlock, State.setByte]
      · rw [hheap, hdata, ← hlen, writeBuf_text]
  · refine ⟨fun h0 => ?_, fun bio h0 w hw => ⟨fun hwle => ?_, fun hwpos pend hpend =>
      ⟨fun hz => ?_, fun hnz m hm => ⟨fun hnone => ?_, fun p hp rd hrd =>
        ⟨fun hrle => ?_, fun hrpos hlt hfit => ?_⟩⟩⟩⟩⟩
    · simp [get_private_key, h0, key_end, LOG, log_print, State.emit]
    · simp [get_private_key, h0, hw, hwle, key_end, LOG, log_print, State.emit,
        print_openssl_errors, drainErrors_eq]
    · have hnw : ¬ w.ret ≤ 0 := by omega
      simp [get_private_key, h0, hw, hnw, hpend, hz, key_end, LOG, log_print, State.emit]
    · have hnw : ¬ w.ret ≤ 0 := by omega
      subst hnone
      simp [get_private_key, h0, hw, hnw, hpend, hnz, hm, key_end, LOG, log_print, State.emit]
    · have hnw : ¬ w.ret ≤ 0 := by omega
      have ht : rd.ret.toNat = 0 := by omega
      subst hp
      simp [get_private_key, h0, hw, hnw, hpend, hnz, hm, hrd, hrle, ht, key_end, LOG, log_print,
        State.emit, State.fill, State.setBlock]
    · have hnw : ¬ w.ret ≤ 0 := by omega
      have hnr : ¬ rd.ret ≤ 0 := by omega
      have hsz : toSize (intToSize pend + 1) = intToSize pend + 1 := Nat.mod_eq_of_lt hlt
      subst hp
      rw [hsz] at hm hrd
      have hfit2 := hfit
      simp only [List.length_take] at hfit2
      have hheap : (get_private_key L key s).2.heap p
          = some ((writeBuf (List.replicate (intToSize pend + 1) none)
              (rd.data.take rd.ret.toNat)).set (intToSize pend) (some 0)) := by
        simp [get_private_key, h0, hw, hnw, hpend, hnz, hm, hrd, hnr, hsz, hfit2, key_end, State.emit,
          State.fill, State.setBlock, State.setByte]
      refine ⟨?_, hheap, fun hlen hdata => ?_⟩
      · simp [get_private_key, h0, hw, hnw, hpend, hnz, hm, hrd, hnr, hsz, hfit2, key_end, State.emit,
          State.fill, State.setBlock, State.setByte]
      · rw [hheap, hdata, ← hlen, writeBuf_text]

/-- Witness for C7: with the stand-in library `get_public_key` returns the
block `1003`, which holds the four bytes the serializer wrote followed by `0`;
without memory BIOs `get_private_key` returns nothing. -/
theorem pem_export_text_witness :
    (get_public_key demoLib 7 emptyState).1 = .ok (some 1003)
    ∧ (get_public_key demoLib 7 emptyState).2.heap 1003
        = some ([45, 80, 85, 66].map some ++ [some 0])
    ∧ (get_private_key noBioLib 7 emptyState).1 = .ok none :=
  ⟨((((((pem_export_text demoLib 7 emptyState).1.2 3 rfl ⟨1, [45, 80, 85, 66]⟩ rfl).2
      (by decide) 4 rfl).2 (by decide) (some 1003) rfl).2 1003 rfl ⟨4, [45, 80, 85, 66]⟩ rfl).2
      (by decide) (by decide) (by decide)).1,
   ((((((pem_export_text demoLib 7 emptyState).1.2 3 rfl ⟨1, [45, 80, 85, 66]⟩ rfl).2
      (by decide) 4 rfl).2 (by decide) (some 1003) rfl).2 1003 rfl ⟨4, [45, 80, 85, 66]⟩ rfl).2
      (by decide) (by decide) (by decide)).2.2 rfl rfl,
   (pem_export_text noBioLib 7 emptyState).2.1 rfl⟩

/-- C7 does not hold for every outcome of the read: the serializer writes five
bytes, `BIO_pending` reports five, and `BIO_read` returns `3` after delivering
three bytes.  The exporter returns the block of six bytes, of which the bytes
at index `3` and `4` were never written. -/
theorem pem_export_short_read :
    (get_public_key shortReadLib 7 emptyState).2.since emptyState
      = [.BIO_new (some 3), .PEM_write_bio_PUBKEY 3 7 ⟨1, [45, 45, 45, 45, 45]⟩,
         .BIO_pending 3 5, .malloc 6 (some 1003),
         .BIO_read 3 1003 5 ⟨3, [45, 45, 45, 45, 45]⟩, .BIO_free 3]
    ∧ (get_public_key shortReadLib 7 emptyState).1 = .ok (some 1003)
    ∧ (get_public_key shortReadLib 7 emptyState).2.heap 1003
        = some [some 45, some 45, some 45, none, none, some 0]
    ∧ (get_public_key shortReadLib 7 emptyState).2.heap 1003
        ≠ some ([45, 45, 45, 45, 45].map some ++ [some 0]) := by
  refine ⟨by decide, rfl, by decide, by decide⟩

/-- C6: `new_sm2_context` and the key generation behind it.  `gen_sm2_key`
returns null when `EVP_PKEY_CTX_new_id` gives no context, when
`EVP_PKEY_keygen_init` or `EVP_PKEY_keygen` returns a status that is not
positive (a handle the failed `EVP_PKEY_keygen` left behind is released), and
otherwise returns the handle `EVP_PKEY_keygen` produced.  `new_sm2_context`
returns null exactly when `gen_sm2_key` returns null or the allocation of the
context fails, and in the second case the generated handle is released before
the return.  Otherwise, whatever the two exporters return (a text or nothing),
the result is the allocated context whose handle is the generated one and
whose text fields are the results of the private and of the public exporter on
that handle. -/
theorem new_sm2_context_result (L : Lib) (s : State) :
    ((L.EVP_PKEY_CTX_new_id (s.trace ++ [.OPENSSL_init_crypto]) = none →
        gen_sm2_key L s = (none, { s with trace := s.trace ++
          [.OPENSSL_init_crypto, .EVP_PKEY_CTX_new_id none, .log LOG_WARNING 54] }))
      ∧ ∀ pctx, L.EVP_PKEY_CTX_new_id (s.trace ++ [.OPENSSL_init_crypto]) = some pctx →
        ∀ i, L.EVP_PKEY_keygen_init (s.trace ++ [.OPENSSL_init_crypto, .EVP_PKEY_CTX_new_id (some pctx)]) pctx = i →
        (i ≤ 0 →
          gen_sm2_key L s = (none, { s with trace := s.trace ++
            [.OPENSSL_init_crypto, .EVP_PKEY_CTX_new_id (some pctx), .EVP_PKEY_keygen_init pctx i, .log LOG_WARNING 59, .EVP_PKEY_CTX_free pctx] }))
        ∧ (0 < i →
          ∀ g, L.EVP_PKEY_keygen (s.trace ++ [.OPENSSL_init_crypto, .EVP_PKEY_CTX_new_id (some pctx), .EVP_PKEY_keygen_init pctx i]) pctx = g →
          (g.1 ≤ 0 →
            gen_sm2_key L s = (none, { s with trace := s.trace ++
              ([.OPENSSL_init_crypto, .EVP_PKEY_CTX_new_id (some pctx), .EVP_PKEY_keygen_init pctx i, .EVP_PKEY_keygen pctx g.1 g.2, .log LOG_WARNING 64]
                ++ drainEvents (L.errQueue (s.trace ++
                    [.OPENSSL_init_crypto, .EVP_PKEY_CTX_new_id (some pctx), .EVP_PKEY_keygen_init pctx i, .EVP_PKEY_keygen pctx g.1 g.2, .log LOG_WARNING 64]))
                ++ (g.2.map Event.EVP_PKEY_free).toList
                ++ [.EVP_PKEY_CTX_free pctx]) }))
          ∧ (0 < g.1 →
            gen_sm2_key L s = (g.2, { s with trace := s.trace ++
              [.OPENSSL_init_crypto, .EVP_PKEY_CTX_new_id (some pctx), .EVP_PKEY_keygen_init pctx i, .EVP_PKEY_keygen pctx g.1 g.2, .EVP_PKEY_CTX_free pctx] }))))
    ∧ ((new_sm2_context L s).1 = .ok none ↔
        (gen_sm2_key L s).1 = none
          ∨ L.malloc (gen_sm2_key L s).2.trace sizeof_sm2_context = none)
    ∧ (∀ key, (gen_sm2_key L s).1 = some key →
        L.malloc (gen_sm2_key L s).2.trace sizeof_sm2_context = none →
        new_sm2_context L s
          = (.ok none, ((gen_sm2_key L s).2.emit (.malloc sizeof_sm2_context none)).emit
              (.EVP_PKEY_free key)))
    ∧ (∀ key a, (gen_sm2_key L s).1 = some key →
        L.malloc (gen_sm2_key L s).2.trace sizeof_sm2_context = some a →
        ∀ priv pub,
          (get_private_key L key (contextAllocated (gen_sm2_key L s).2 a)).1 = .ok priv →
          (get_public_key L key
            (get_private_key L key (contextAllocated (gen_sm2_key L s).2 a)).2).1 = .ok pub →
          new_sm2_context L s
            = (.ok (some { addr := a,
                           obj := { key := some key, private_key := priv, public_key := pub } }),
               (get_public_key L key
                 (get_private_key L key (contextAllocated (gen_sm2_key L s).2 a)).2).2))
    ∧ (∀ c, (new_sm2_context L s).1 = .ok (some c) →
        ∃ key, (gen_sm2_key L s).1 = some key ∧ c.obj.key = some key
          ∧ L.malloc (gen_sm2_key L s).2.trace sizeof_sm2_context = some c.addr
          ∧ (get_private_key L key (contextAllocated (gen_sm2_key L s).2 c.addr)).1
              = .ok c.obj.private_key
          ∧ (get_public_key L key
              (get_private_key L key (contextAllocated (gen_sm2_key L s).2 c.addr)).2).1
              = .ok c.obj.public_key) := by
  refine ⟨⟨fun h0 => ?_, fun pctx h0 i hi => ⟨fun hle => ?_, fun hpos g hg =>
    ⟨fun hgle => ?_, fun hgpos => ?_⟩⟩⟩, ?_⟩
  · simp [gen_sm2_key, h0, gen_end, LOG, log_print, State.emit]
  · simp [gen_sm2_key, h0, hi, hle, gen_end, LOG, log_print, State.emit]
  · have hni : ¬ i ≤ 0 := by omega
    rcases g with ⟨g1, g2⟩
    cases g2 <;>
      simp [gen_sm2_key, h0, hi, hni, hg, (show g1 ≤ 0 from hgle), gen_end, LOG, log_print,
        State.emit, print_openssl_errors, drainErrors_eq]
  · have hni : ¬ i ≤ 0 := by omega
    have hng : ¬ g.1 ≤ 0 := by omega
    simp [gen_sm2_key, h0, hi, hni, hg, hng, gen_end, LOG, log_print, State.emit]
  unfold new_sm2_context
  rcases hg : gen_sm2_key L s with ⟨g1, g2⟩
  cases g1 with
  | none => simp
  | some key =>
    simp only []
    cases hm : L.malloc g2.trace sizeof_sm2_context with
    | none => simp
    | some a =>
      simp only []
      have hca : (g2.emit (.malloc sizeof_sm2_context (some a))).setBlock a
          (List.replicate sizeof_sm2_context none) = contextAllocated g2 a := rfl
      rw [hca]
      rcases hp : get_private_key L key (contextAllocated g2 a) with ⟨p1, p2⟩
      cases p1 with
      | error f => simp [hp]
      | ok priv =>
        simp only []
        rcases hq : get_public_key L key p2 with ⟨q1, q2⟩
        cases q1 with
        | error f => simp [hp, hq]
        | ok pub =>
          simp only [hp, hq, reduceCtorEq, false_or, false_iff, not_false_eq_true, true_and,
            Option.some.injEq, Except.ok.injEq, IsEmpty.forall_iff, implies_true]
          refine ⟨?_, ?_⟩
          · rintro key2 a2 rfl rfl priv2 pub2 h1 h2
            simp only [hp, hq, Except.ok.injEq] at h1 h2
            subst h1 h2
            simp [hp, hq]
          · rintro c rfl
            exact ⟨key, rfl, rfl, rfl, by simp [hp], by simp [hp, hq]⟩

/-- Reading `m` bytes from a fresh block into which `d` was written gives the
first `m` bytes of `d`, and nothing when `d` is shorter than `m`. -/
theorem readBytes_fresh (n m : Nat) (d C : List Byte) (hm : m ≤ n)
    (h : readBytes ((writeBuf (List.replicate n none) d).take m) = some C) :
    m ≤ d.length ∧ C = d.take m := by
  by_cases hle : m ≤ d.length
  · rw [writeBuf_take _ _ _ hle, readBytes_map_some] at h
    exact ⟨hle, (Option.some.inj h).symm⟩
  · exfalso
    have hlt : d.length < m := by omega
    obtain ⟨k, hk⟩ : ∃ k, m = (d.map some).length + (k + 1) :=
      ⟨m - d.length - 1, by simp; omega⟩
    have hn : n - d.length = (n - d.length - 1) + 1 := by omega
    rw [writeBuf, hk, List.take_append, List.drop_replicate, hn, List.replicate_succ,
      List.take_succ_cons, readBytes_unwritten] at h
    cases h

/-- The primitives of `demoLib` are inverse to each other, whatever the rest of the
library does. -/
theorem demo_round_trip (L : Lib) (key : Nat)
    (he : L.EVP_PKEY_encrypt = demoLib.EVP_PKEY_encrypt)
    (hd : L.EVP_PKEY_decrypt = demoLib.EVP_PKEY_decrypt) : L.RoundTrip key := by
  intro h1 h2 h3 ectx p P qe re C _
  rw [he, hd]
  simp only [demoLib]
  by_cases hc : P.length + 4 < SIZE_MOD
  · simp only [hc, if_true]
    have h1 : toSize (P.length + 1) = P.length + 1 := Nat.mod_eq_of_lt (by omega)
    have h0 : toSize P.length = P.length := Nat.mod_eq_of_lt (by omega)
    rintro rfl rfl _ rfl h4 dctx i qd _ _ _ rfl
    refine ⟨by simp, ?_⟩
    rintro k q rd rfl
    simp [h1, h0]
  · rintro rfl rfl h
    simp [hc] at h

/-- C5: the round trip.  Let the SM2 primitives of the library be inverse to
each other, and let `sm2_encrypt` return `0` on `P`, the caller finding the
bytes `C` behind `out` and `outLen`.  Then `C` has the stored length, and
`sm2_decrypt` on `C` with that length goes as follows: it returns `-1` when
the library refuses the operation context, when the initialisation returns a
status that is not positive, and when `OPENSSL_zalloc` refuses the output
block; otherwise it returns `0` with length `|P|` and bytes `P`. -/
theorem sm2_round_trip (L : Lib) (c : ContextPtr) (key : Nat) (P : List Byte)
    (o ol o2 ol2 : Nat) (s : State) (C : List Byte)
    (hk : c.obj.key = some key) (hrt : L.RoundTrip key)
    (henc : (sm2_encrypt L (some c) (some P) P.length (some o) (some ol) s).1 = .ok 0)
    (hC : (sm2_encrypt L (some c) (some P) P.length (some o) (some ol) s).2.outBytes o ol = some C) :
    C.length = (sm2_encrypt L (some c) (some P) P.length (some o) (some ol) s).2.sizeCells ol
    ∧ (L.EVP_PKEY_CTX_new (sm2_encrypt L (some c) (some P) P.length (some o) (some ol) s).2.trace key = none →
        (sm2_decrypt L (some c) (some C) ((sm2_encrypt L (some c) (some P) P.length (some o) (some ol) s).2.sizeCells ol) (some o2) (some ol2)
          (sm2_encrypt L (some c) (some P) P.length (some o) (some ol) s).2).1 = .ok (-1))
    ∧ ∀ dctx, L.EVP_PKEY_CTX_new (sm2_encrypt L (some c) (some P) P.length (some o) (some ol) s).2.trace key = some dctx →
      ∀ i, L.EVP_PKEY_decrypt_init ((sm2_encrypt L (some c) (some P) P.length (some o) (some ol) s).2.trace
          ++ [.EVP_PKEY_CTX_new key (some dctx)]) dctx = i →
      (i ≤ 0 →
        (sm2_decrypt L (some c) (some C) ((sm2_encrypt L (some c) (some P) P.length (some o) (some ol) s).2.sizeCells ol) (some o2) (some ol2)
          (sm2_encrypt L (some c) (some P) P.length (some o) (some ol) s).2).1 = .ok (-1))
      ∧ (0 < i →
        ∀ q, L.EVP_PKEY_decrypt ((sm2_encrypt L (some c) (some P) P.length (some o) (some ol) s).2.trace
            ++ [.EVP_PKEY_CTX_new key (some dctx), .EVP_PKEY_decrypt_init dctx i]) dctx none 0 C
            ((sm2_encrypt L (some c) (some P) P.length (some o) (some ol) s).2.sizeCells ol) = q →
        ∀ m, opensslAlloc (L.OPENSSL_zalloc ((sm2_encrypt L (some c) (some P) P.length (some o) (some ol) s).2.trace
            ++ [.EVP_PKEY_CTX_new key (some dctx), .EVP_PKEY_decrypt_init dctx i,
                .EVP_PKEY_decrypt dctx none 0 C ((sm2_encrypt L (some c) (some P) P.length (some o) (some ol) s).2.sizeCells ol) q])
            (toSize (toSize q.outlen + 1))) (toSize (toSize q.outlen + 1)) = m →
        (m = none →
          (sm2_decrypt L (some c) (some C) ((sm2_encrypt L (some c) (some P) P.length (some o) (some ol) s).2.sizeCells ol) (some o2) (some ol2)
          (sm2_encrypt L (some c) (some P) P.length (some o) (some ol) s).2).1 = .ok (-1))
        ∧ ∀ p, m = some p →
          (sm2_decrypt L (some c) (some C) ((sm2_encrypt L (some c) (some P) P.length (some o) (some ol) s).2.sizeCells ol) (some o2) (some ol2)
          (sm2_encrypt L (some c) (some P) P.length (some o) (some ol) s).2).1 = .ok 0
          ∧ (sm2_decrypt L (some c) (some C) ((sm2_encrypt L (some c) (some P) P.length (some o) (some ol) s).2.sizeCells ol) (some o2) (some ol2)
          (sm2_encrypt L (some c) (some P) P.length (some o) (some ol) s).2).2.sizeCells ol2 = P.length
          ∧ (sm2_decrypt L (some c) (some C) ((sm2_encrypt L (some c) (some P) P.length (some o) (some ol) s).2.sizeCells ol) (some o2) (some ol2)
          (sm2_encrypt L (some c) (some P) P.length (some o) (some ol) s).2).2.outBytes o2 ol2 = some P) := by
  have hrun := sm2_encrypt_run L c key P P.length o ol s hk
  generalize sm2_encrypt L (some c) (some P) P.length (some o) (some ol) s = E at *
  rcases hrun with
    ⟨_, h⟩ | ⟨ctx, i, l, hi, h⟩ | ⟨ctx, i, q, hi, hq, h⟩ | ⟨ctx, i, q, hi, hq, h⟩
    | ⟨ctx, i, q, p, r2, hi, hq, hr, h⟩
    | ⟨ctx, i, q, p, r2, h1, h2, hi, hq, hr, hctx, hql, hrl, hfit, h⟩ | h
  · rw [h] at henc; cases henc
  · rw [h] at henc; cases henc
  · rw [h] at henc; cases henc
  · rw [h] at henc; cases henc
  · rw [h] at henc; cases henc
  · have hsize : E.2.sizeCells ol = toSize r2.outlen := by rw [h]; simp
    have hptr : E.2.ptrCells o = some p := by rw [h]; simp
    have hheap : E.2.heap p
        = some (writeBuf (List.replicate (toSize q.outlen) none) r2.data) := by rw [h]; simp
    have hlen0 : (writeBuf (List.replicate (toSize q.outlen) none) r2.data).length
        = toSize q.outlen := (writeBuf_length _ _ (by simpa using hfit)).trans (by simp)
    simp only [State.outBytes, hptr, hheap, hsize, hlen0] at hC
    by_cases hmn : toSize r2.outlen ≤ toSize q.outlen
    swap
    · rw [if_neg hmn] at hC; cases hC
    rw [if_pos hmn] at hC
    obtain ⟨hmd, hCeq⟩ := readBytes_fresh _ _ _ _ hmn hC
    have hlenC : C.length = E.2.sizeCells ol := by
      rw [hsize, hCeq, List.length_take]; omega
    have hdec := hrt s.trace h1 h2 ctx p P q r2 C hctx hql.symm hrl.symm hr hCeq
    simp only [hlenC] at hdec
    have T := sm2_decrypt_steps L c key C (E.2.sizeCells ol) o2 ol2 E.2 hk
    refine ⟨hlenC, T.1, fun dctx h0 i hi2 => ⟨(T.2 dctx h0 i hi2).1, fun hipos q2 hq2 m hm => ?_⟩⟩
    obtain ⟨f1, frest⟩ := hdec E.2.trace dctx i q2 h0 hi2 hipos hq2
    have T3 := (((T.2 dctx h0 i hi2).2 hipos q2 hq2).2 f1 m hm)
    refine ⟨T3.1, fun p2 hp2 => ?_⟩
    subst hp2
    have hsz := toSize_succ q2.outlen (opensslAlloc_some _ _ _ hm).1
    obtain ⟨r3, hr3⟩ : ∃ r3, L.EVP_PKEY_decrypt (E.2.trace
      ++ [.EVP_PKEY_CTX_new key (some dctx), .EVP_PKEY_decrypt_init dctx i,
          .EVP_PKEY_decrypt dctx none 0 C (E.2.sizeCells ol) q2,
          .OPENSSL_zalloc (toSize (toSize q2.outlen + 1)) (some p2)]) dctx (some p2)
        (toSize q2.outlen) C (E.2.sizeCells ol) = r3 := ⟨_, rfl⟩
    obtain ⟨f2, f3, f4, f5⟩ := frest _ p2 r3 hr3
    have hfit3 : r3.data.length ≤ toSize (toSize q2.outlen + 1) := by rw [hsz]; omega
    obtain ⟨t1, t2, t3, t4⟩ := ((T3.2 p2 rfl r3 hr3).2 hfit3).2 f2
    refine ⟨t1, by rw [t3, f4], ?_⟩
    have hPd : P.length ≤ r3.data.length := by
      have := congrArg List.length f5
      simp only [List.length_take] at this
      omega
    have hl : (writeBuf (List.replicate (toSize (toSize q2.outlen + 1)) (some 0)) r3.data).length
        = toSize (toSize q2.outlen + 1) :=
      (writeBuf_length _ _ (by simpa using hfit3)).trans (by simp)
    simp only [State.outBytes, t2, t3, t4, f4, hl]
    rw [if_pos (by omega), writeBuf_take _ _ _ hPd, f5, readBytes_map_some]
  · rw [h] at henc; cases henc

/-- Witness for C5: with the stand-in library, `hello world` is encrypted to
twelve bytes and decrypted back to `hello world`. -/
theorem sm2_round_trip_witness :
    demoContext.obj.key = some 7
    ∧ demoLib.RoundTrip 7
    ∧ (sm2_encrypt demoLib (some demoContext) (some helloWorld) helloWorld.length (some 1) (some 2)
        emptyState).1 = .ok 0
    ∧ (sm2_encrypt demoLib (some demoContext) (some helloWorld) helloWorld.length (some 1) (some 2)
        emptyState).2.outBytes 1 2 = some (7 :: helloWorld)
    ∧ (sm2_decrypt demoLib (some demoContext) (some (7 :: helloWorld))
        ((sm2_encrypt demoLib (some demoContext) (some helloWorld) helloWorld.length (some 1) (some 2)
        emptyState).2.sizeCells 2) (some 3) (some 4)
        (sm2_encrypt demoLib (some demoContext) (some helloWorld) helloWorld.length (some 1) (some 2)
        emptyState).2).1 = .ok 0
    ∧ (sm2_decrypt demoLib (some demoContext) (some (7 :: helloWorld))
        ((sm2_encrypt demoLib (some demoContext) (some helloWorld) helloWorld.length (some 1) (some 2)
        emptyState).2.sizeCells 2) (some 3) (some 4)
        (sm2_encrypt demoLib (some demoContext) (some helloWorld) helloWorld.length (some 1) (some 2)
        emptyState).2).2.sizeCells 4 = helloWorld.length
    ∧ (sm2_decrypt demoLib (some demoContext) (some (7 :: helloWorld))
        ((sm2_encrypt demoLib (some demoContext) (some helloWorld) helloWorld.length (some 1) (some 2)
        emptyState).2.sizeCells 2) (some 3) (some 4)
        (sm2_encrypt demoLib (some demoContext) (some helloWorld) helloWorld.length (some 1) (some 2)
        emptyState).2).2.outBytes 3 4 = some helloWorld :=
  ⟨rfl, demo_round_trip demoLib 7 rfl rfl, rfl, rfl,
   (((sm2_round_trip demoLib demoContext 7 helloWorld 1 2 3 4 emptyState (7 :: helloWorld) rfl
      (demo_round_trip demoLib 7 rfl rfl) rfl rfl).2.2 2 rfl 1 rfl).2 (by decide) ⟨1, 12, []⟩ rfl
      (some 200) rfl).2 200 rfl⟩

/-- C5, as stated, fails: with a library whose primitives are inverse to each
other, `sm2_encrypt` returns `0` on `hello world` with a ciphertext of twelve
bytes, and `sm2_decrypt` on that ciphertext returns `-1` because
`OPENSSL_zalloc` returned null. -/
theorem sm2_round_trip_allocation_refused :
    noZallocLib.RoundTrip 7
    ∧ (sm2_encrypt noZallocLib (some demoContext) (some helloWorld) 11 (some 1) (some 2)
        emptyState).1 = .ok 0
    ∧ (sm2_encrypt noZallocLib (some demoContext) (some helloWorld) 11 (some 1) (some 2)
        emptyState).2.outBytes 1 2 = some (7 :: helloWorld)
    ∧ (sm2_encrypt noZallocLib (some demoContext) (some helloWorld) 11 (some 1) (some 2)
        emptyState).2.sizeCells 2 = 12
    ∧ (sm2_decrypt noZallocLib (some demoContext) (some (7 :: helloWorld)) 12 (some 3) (some 4)
        (sm2_encrypt noZallocLib (some demoContext) (some helloWorld) 11 (some 1) (some 2)
        emptyState).2).1 = .ok (-1) :=
  ⟨demo_round_trip noZallocLib 7 rfl rfl, rfl, by decide, by decide, rfl⟩

/-- Witness for C6: with the stand-in library `gen_sm2_key` returns the handle
the library generated; without memory BIOs both exports fail and the context
is returned with its handle and no text. -/
theorem new_sm2_context_result_witness :
    gen_sm2_key demoLib emptyState
      = (some 7, { emptyState with trace := emptyState.trace ++
          [.OPENSSL_init_crypto, .EVP_PKEY_CTX_new_id (some 1), .EVP_PKEY_keygen_init 1 1,
           .EVP_PKEY_keygen 1 1 (some 7), .EVP_PKEY_CTX_free 1] })
    ∧ (new_sm2_context noBioLib emptyState).1
        = .ok (some { addr := 1005,
                      obj := { key := some 7, private_key := none, public_key := none } }) :=
  ⟨(((new_sm2_context_result demoLib emptyState).1.2 1 rfl 1 rfl).2 (by decide) (1, some 7)
      rfl).2 (by decide),
   congrArg Prod.fst ((new_sm2_context_result noBioLib emptyState).2.2.2.1 7 1005 rfl rfl
     none none rfl rfl)⟩

end DdeSm2
